import Mathlib

/-!
Verification of the speakApp stranger-pairing / WebRTC signaling server.

The repository contains six near-duplicate server variants:
  index.js            -- status-tagged waiting list, no modes, no timers
  part_000            -- like index.js, but the requester is spliced out before matching
  part_001 (first)    -- per-mode queues (voice/video), escalation timers for voice pairs
  part_001 (second)   -- early variant, no status objects (not needed by the claims)
  part_002 (first)    -- single queue, random initiator, timer for every pair
  part_002 (second)   -- status+mode waiting list, unconditional timer, no fire-time check

Sockets are opaque handles, modelled as natural numbers.  The transport
readiness flag (ws.readyState === ws.OPEN) is modelled by an explicit list
of open handles carried in each state; sendMessageToClient drops the
message when the recipient is not open, exactly like the JS guard.
Outbound messages accumulate in a log of (recipient, message) pairs.
JS Map objects are modelled as association lists with first-match lookup,
in-place update and all-occurrence deletion, which agrees with Map
get/set/delete/has semantics (code never iterates a Map).
setTimeout timers are modelled as entries holding the two captured handles
and the delay; an entry is live exactly while the underlying timer is
scheduled, because every clearTimeout in the sources is immediately
followed by deletion of both entries.
-/

abbrev WS := Nat

inductive Mode where
  | voice
  | video
deriving DecidableEq

def modeStr : Mode → String
  | Mode.voice => "voice"
  | Mode.video => "video"

inductive QStatus where
  | WAITING
  | DISCONNECTED
deriving DecidableEq

inductive Msg where
  | statusM (message : String)
  | pairFoundM (initiator : Bool)
  | signalM (signal : String)
  | disconnectedM (message : String)
  | enableVideoM (message : String)
deriving DecidableEq

structure Timer where
  a : WS
  b : WS
  delay : Nat
deriving DecidableEq

/-- Shared 60-second escalation delay constant of the timer variants. -/
def VIDEO_ENABLE_DELAY_MS : Nat := 60000

/-- JS Map lookup (Map.get): first matching key. -/
def mapGet {α : Type} : List (Nat × α) → Nat → Option α
  | [], _ => none
  | p :: m, k => if p.1 = k then some p.2 else mapGet m k

/-- JS Map update (Map.set): replace in place if the key exists, else append. -/
def mapSet {α : Type} : List (Nat × α) → Nat → α → List (Nat × α)
  | [], k, v => [(k, v)]
  | p :: m, k, v => if p.1 = k then (k, v) :: m else p :: mapSet m k v

/-- JS Map deletion (Map.delete). -/
def mapDel {α : Type} : List (Nat × α) → Nat → List (Nat × α)
  | [], _ => []
  | p :: m, k => if p.1 = k then mapDel m k else p :: mapDel m k

/-- JS Map membership (Map.has). -/
def mapHas {α : Type} (m : List (Nat × α)) (k : Nat) : Bool :=
  (mapGet m k).isSome

theorem mapGet_set_self {α : Type} (m : List (Nat × α)) (k : Nat) (v : α) :
    mapGet (mapSet m k v) k = some v := by
  induction m with
  | nil => simp [mapSet, mapGet]
  | cons p m ih =>
      by_cases h : p.1 = k
      · simp [mapSet, h, mapGet]
      · simp [mapSet, h, mapGet, ih]

theorem mapGet_set_ne {α : Type} (m : List (Nat × α)) (k : Nat) (v : α) (j : Nat)
    (h : j ≠ k) : mapGet (mapSet m k v) j = mapGet m j := by
  induction m with
  | nil => simp [mapSet, mapGet, Ne.symm h]
  | cons p m ih =>
      by_cases hp : p.1 = k
      · subst hp
        simp [mapSet, mapGet, Ne.symm h]
      · by_cases hj : p.1 = j
        · simp [mapSet, hp, mapGet, hj, h]
        · simp [mapSet, hp, mapGet, hj, ih]

theorem mapGet_del_self {α : Type} (m : List (Nat × α)) (k : Nat) :
    mapGet (mapDel m k) k = none := by
  induction m with
  | nil => simp [mapDel, mapGet]
  | cons p m ih =>
      by_cases h : p.1 = k
      · simp [mapDel, h, ih]
      · simp [mapDel, h, mapGet, ih]

theorem mapGet_del_ne {α : Type} (m : List (Nat × α)) (k j : Nat) (h : j ≠ k) :
    mapGet (mapDel m k) j = mapGet m j := by
  induction m with
  | nil => simp [mapDel]
  | cons p m ih =>
      by_cases hp : p.1 = k
      · subst hp
        simp [mapDel, mapGet, Ne.symm h, ih]
      · simp only [mapDel, if_neg hp]
        by_cases hj : p.1 = j
        · simp [mapGet, hj]
        · simp [mapGet, hj, ih]

theorem mapGet_del_none {α : Type} (m : List (Nat × α)) (k j : Nat)
    (h : mapGet m j = none) : mapGet (mapDel m k) j = none := by
  by_cases hk : j = k
  · subst hk; exact mapGet_del_self m j
  · rw [mapGet_del_ne m k j hk]; exact h

theorem mapGet_del2 {α : Type} (m : List (Nat × α)) (x y j : Nat) :
    mapGet (mapDel (mapDel m x) y) j =
      if j = y then none else if j = x then none else mapGet m j := by
  by_cases hy : j = y
  · simp [hy, mapGet_del_self]
  · rw [mapGet_del_ne _ _ _ hy]
    by_cases hx : j = x
    · simp [hx, hy, mapGet_del_self]
    · rw [mapGet_del_ne _ _ _ hx]; simp [hx, hy]

/-! ## index.js

The main variant: a single waiting list of `{ ws, status }` objects, a
pairs Map, no modes and no timers.  `attemptToPair` filters the list but
does not splice the requester itself out before matching. -/

namespace IndexJs

structure Entry where
  ws : WS
  status : QStatus
deriving DecidableEq

structure St where
  opens : List WS
  waitingClients : List Entry
  pairs : List (WS × WS)
  log : List (WS × Msg)
deriving DecidableEq

def sendMessageToClient (s : St) (ws : WS) (m : Msg) : St :=
  if s.opens.contains ws then { s with log := s.log ++ [(ws, m)] } else s

/-- The filter pass at the top of attemptToPair (index.js lines 59-65). -/
def validWaitingClients (s : St) : List Entry :=
  s.waitingClients.filter fun c =>
    s.opens.contains c.ws && !(mapHas s.pairs c.ws) && c.status == QStatus.WAITING

def attemptToPair (s : St) (ws : WS) : St :=
  match validWaitingClients s with
  | [] =>
      let s1 : St := { s with waitingClients := [{ ws := ws, status := QStatus.WAITING }] }
      sendMessageToClient s1 ws (Msg.statusM ("Waiting for a stranger..."))
  | partnerClient :: rest =>
      let partner := partnerClient.ws
      let s1 : St := { s with
        waitingClients := rest,
        pairs := mapSet (mapSet s.pairs ws partner) partner ws }
      let s2 := sendMessageToClient s1 ws (Msg.pairFoundM true)
      sendMessageToClient s2 partner (Msg.pairFoundM false)

/-- waitingClients.findIndex + mutate status of the found entry. -/
def setStatusFirst : List Entry → WS → QStatus → List Entry
  | [], _, _ => []
  | c :: rest, w, st =>
      if c.ws = w then { c with status := st } :: rest
      else c :: setStatusFirst rest w st

/-- waitingClients.findIndex + splice(index, 1). -/
def removeFirst : List Entry → WS → List Entry
  | [], _ => []
  | c :: rest, w => if c.ws = w then rest else c :: removeFirst rest w

def disconnectPair (s : St) (ws : WS) (shouldRequeuePartner : Bool) : St :=
  let s1 :=
    match mapGet s.pairs ws with
    | none => s
    | some partner =>
        let t1 := sendMessageToClient s partner (Msg.disconnectedM ("Your partner disconnected."))
        let t2 : St := { t1 with pairs := mapDel (mapDel t1.pairs ws) partner }
        if shouldRequeuePartner then attemptToPair t2 partner
        else { t2 with waitingClients := setStatusFirst t2.waitingClients partner QStatus.DISCONNECTED }
  { s1 with waitingClients := removeFirst s1.waitingClients ws }

def cleanupClient (s : St) (ws : WS) : St :=
  let s1 : St := { s with waitingClients := removeFirst s.waitingClients ws }
  disconnectPair s1 ws true

/-- Transport connection handler: the socket becomes open, the greeting
STATUS is sent, and the client is listed with DISCONNECTED status. -/
def onConnection (s : St) (ws : WS) : St :=
  let s1 : St := { s with opens := ws :: s.opens }
  let s2 := sendMessageToClient s1 ws (Msg.statusM ("Press Connect to start."))
  { s2 with waitingClients := s2.waitingClients ++ [{ ws := ws, status := QStatus.DISCONNECTED }] }

def onMsgSIGNAL (s : St) (ws : WS) (sig : String) : St :=
  match mapGet s.pairs ws with
  | some partner => sendMessageToClient s partner (Msg.signalM sig)
  | none => sendMessageToClient s ws (Msg.statusM ("You are not paired."))

def onMsgDISCONNECT (s : St) (ws : WS) : St :=
  let s1 := disconnectPair s ws true
  let s2 : St := { s1 with waitingClients := s1.waitingClients ++ [{ ws := ws, status := QStatus.DISCONNECTED }] }
  sendMessageToClient s2 ws (Msg.statusM ("Disconnected. Press Connect for a new stranger."))

def onMsgCONNECT (s : St) (ws : WS) : St :=
  let s1 := disconnectPair s ws false
  let s2 : St :=
    if s1.waitingClients.any (fun c => c.ws == ws) then
      { s1 with waitingClients := setStatusFirst s1.waitingClients ws QStatus.WAITING }
    else
      { s1 with waitingClients := s1.waitingClients ++ [{ ws := ws, status := QStatus.WAITING }] }
  attemptToPair s2 ws

def onClose (s : St) (ws : WS) : St :=
  let s1 : St := { s with opens := s.opens.filter (fun w => !(w == ws)) }
  cleanupClient s1 ws

def initSt : St := { opens := [], waitingClients := [], pairs := [], log := [] }

end IndexJs


/-! ## part_001 (first file)

Mode-partitioned variant: pendingUsers has one queue per mode, pairs live
in pairedConnections, and voice pairs get a 60 s escalation timer whose
callback enableVideoModeForPair re-checks the pair registry.  On requeue
after a disconnect the partner object is rebuilt as { ws, mode: voice }
(part_001 line 140), regardless of the mode the partner had requested. -/

namespace Part001

structure PC where
  ws : WS
  mode : Mode
deriving DecidableEq

structure St where
  opens : List WS
  voiceQ : List PC
  videoQ : List PC
  pairedConnections : List (WS × WS)
  videoTimers : List (WS × Timer)
  log : List (WS × Msg)
deriving DecidableEq

def getQ (s : St) : Mode → List PC
  | Mode.voice => s.voiceQ
  | Mode.video => s.videoQ

def setQ (s : St) (m : Mode) (q : List PC) : St :=
  match m with
  | Mode.voice => { s with voiceQ := q }
  | Mode.video => { s with videoQ := q }

def sendMessageToClient (s : St) (ws : WS) (m : Msg) : St :=
  if s.opens.contains ws then { s with log := s.log ++ [(ws, m)] } else s

/-- Timer callback (part_001 lines 50-64): sends ENABLE_VIDEO to both sides
only if the pair registry still maps ws1 to ws2, then drops the timer
bookkeeping for both. -/
def enableVideoModeForPair (s : St) (ws1 ws2 : WS) : St :=
  let s1 :=
    if mapGet s.pairedConnections ws1 = some ws2 then
      let t1 := sendMessageToClient s ws1 (Msg.enableVideoM ("Video chat enabled! Say hello visually."))
      sendMessageToClient t1 ws2 (Msg.enableVideoM ("Video chat enabled! Say hello visually."))
    else s
  match mapGet s1.videoTimers ws1 with
  | none => s1
  | some _ => { s1 with videoTimers := mapDel (mapDel s1.videoTimers ws1) ws2 }

/-- The stale-entry cleanup pass at the top of attemptToPair (lines 75-77). -/
def filteredQueue (s : St) (m : Mode) : List PC :=
  (getQ s m).filter fun c => s.opens.contains c.ws && !(mapHas s.pairedConnections c.ws)

def attemptToPair (s : St) (ws : WS) (mode : Mode) : St :=
  match filteredQueue s mode with
  | [] =>
      let s1 := setQ s mode [{ ws := ws, mode := mode }]
      sendMessageToClient s1 ws
        (Msg.statusM ("Searching for a stranger in " ++ modeStr mode ++ " mode..."))
  | partnerClient :: rest =>
      let partner := partnerClient.ws
      let s1 := setQ s mode rest
      let s2 : St := { s1 with
        pairedConnections := mapSet (mapSet s1.pairedConnections ws partner) partner ws }
      let s3 := sendMessageToClient s2 ws (Msg.pairFoundM true)
      let s4 := sendMessageToClient s3 partner (Msg.pairFoundM false)
      if mode = Mode.voice then
        { s4 with
          videoTimers := mapSet (mapSet s4.videoTimers ws (Timer.mk ws partner VIDEO_ENABLE_DELAY_MS))
            partner (Timer.mk ws partner VIDEO_ENABLE_DELAY_MS) }
      else s4

def disconnectPair (s : St) (ws : WS) (shouldRequeuePartner : Bool) : St :=
  let s1 :=
    match mapGet s.videoTimers ws with
    | none => s
    | some _ =>
        match mapGet s.pairedConnections ws with
        | some p => { s with videoTimers := mapDel (mapDel s.videoTimers ws) p }
        | none => { s with videoTimers := mapDel s.videoTimers ws }
  let s2 :=
    match mapGet s.pairedConnections ws with
    | none => s1
    | some partner =>
        let t1 := sendMessageToClient s1 partner (Msg.disconnectedM ("Your partner disconnected."))
        let t2 : St := { t1 with
          pairedConnections := mapDel (mapDel t1.pairedConnections ws) partner }
        if shouldRequeuePartner then attemptToPair t2 partner Mode.voice
        else t2
  { s2 with
    voiceQ := s2.voiceQ.filter (fun c => !(c.ws == ws)),
    videoQ := s2.videoQ.filter (fun c => !(c.ws == ws)) }

def onConnection (s : St) (ws : WS) : St :=
  let s1 : St := { s with opens := ws :: s.opens }
  sendMessageToClient s1 ws (Msg.statusM ("Press Connect to start."))

def onMsgSIGNAL (s : St) (ws : WS) (sig : String) : St :=
  match mapGet s.pairedConnections ws with
  | some partner => sendMessageToClient s partner (Msg.signalM sig)
  | none =>
      let s1 := disconnectPair s ws false
      sendMessageToClient s1 ws (Msg.statusM ("Signaling failed: You are not paired."))

def onMsgDISCONNECT (s : St) (ws : WS) : St :=
  let s1 := disconnectPair s ws false
  sendMessageToClient s1 ws (Msg.statusM ("Disconnected. Press Connect for a new stranger."))

/-- CONNECT handler; the argument m is the already-decoded mode
(data.mode equal to the string video gives video, anything else voice). -/
def onMsgCONNECT (s : St) (ws : WS) (m : Mode) : St :=
  let s1 := disconnectPair s ws false
  attemptToPair s1 ws m

def onClose (s : St) (ws : WS) : St :=
  let s1 : St := { s with opens := s.opens.filter (fun w => !(w == ws)) }
  disconnectPair s1 ws true

def onError (s : St) (ws : WS) : St :=
  let s1 : St := { s with opens := s.opens.filter (fun w => !(w == ws)) }
  disconnectPair s1 ws true

end Part001


/-! ## part_002 (first file)

Single-queue variant: all sessions start as voice, pendingUsers is a plain
socket list, the initiator is drawn pseudo-randomly (Math.random below 0.5),
and every pair receives the 60 s timer.  The Math.random draw is modelled
as an explicit Bool argument r.  The unpaired-SIGNAL branch sends nothing. -/

namespace Part002A

structure St where
  opens : List WS
  pendingUsers : List WS
  pairedConnections : List (WS × WS)
  videoTimers : List (WS × Timer)
  log : List (WS × Msg)
deriving DecidableEq

def sendMessageToClient (s : St) (ws : WS) (m : Msg) : St :=
  if s.opens.contains ws then { s with log := s.log ++ [(ws, m)] } else s

/-- Timer callback (part_002 lines 47-63): ENABLE_VIDEO only if the pair
registry still maps ws1 to ws2, then timer bookkeeping is dropped. -/
def enableVideoModeForPair (s : St) (ws1 ws2 : WS) : St :=
  let s1 :=
    if mapGet s.pairedConnections ws1 = some ws2 then
      let t1 := sendMessageToClient s ws1 (Msg.enableVideoM ("Video chat enabled! Say hello visually."))
      sendMessageToClient t1 ws2 (Msg.enableVideoM ("Video chat enabled! Say hello visually."))
    else s
  match mapGet s1.videoTimers ws1 with
  | none => s1
  | some _ => { s1 with videoTimers := mapDel (mapDel s1.videoTimers ws1) ws2 }

/-- The stale-entry cleanup view (part_002 lines 70-72); note the filtered
list is a separate array, the main pendingUsers keeps its stale entries. -/
def availableUsers (s : St) : List WS :=
  s.pendingUsers.filter fun u => s.opens.contains u && !(mapHas s.pairedConnections u)

/-- pendingUsers.findIndex + splice(index, 1). -/
def removeFirstWS : List WS → WS → List WS
  | [], _ => []
  | u :: rest, w => if u = w then rest else u :: removeFirstWS rest w

def attemptToPair (s : St) (ws : WS) (r : Bool) : St :=
  match availableUsers s with
  | [] =>
      let s1 : St := { s with pendingUsers := s.pendingUsers ++ [ws] }
      sendMessageToClient s1 ws (Msg.statusM ("Searching for a stranger..."))
  | partner :: _ =>
      let s1 : St := { s with pendingUsers := removeFirstWS s.pendingUsers partner }
      let s2 : St := { s1 with
        pairedConnections := mapSet (mapSet s1.pairedConnections ws partner) partner ws }
      let s3 := sendMessageToClient s2 ws (Msg.pairFoundM r)
      let s4 := sendMessageToClient s3 partner (Msg.pairFoundM (!r))
      { s4 with
        videoTimers := mapSet (mapSet s4.videoTimers ws (Timer.mk ws partner VIDEO_ENABLE_DELAY_MS))
          partner (Timer.mk ws partner VIDEO_ENABLE_DELAY_MS) }

def disconnectPair (s : St) (ws : WS) (shouldRequeuePartner : Bool) (r : Bool) : St :=
  let s1 :=
    match mapGet s.videoTimers ws with
    | none => s
    | some _ =>
        match mapGet s.pairedConnections ws with
        | some p => { s with videoTimers := mapDel (mapDel s.videoTimers ws) p }
        | none => { s with videoTimers := mapDel s.videoTimers ws }
  let s2 :=
    match mapGet s.pairedConnections ws with
    | none => s1
    | some partner =>
        let t1 := sendMessageToClient s1 partner (Msg.disconnectedM ("Your partner disconnected."))
        let t2 : St := { t1 with
          pairedConnections := mapDel (mapDel t1.pairedConnections ws) partner }
        if shouldRequeuePartner && t2.opens.contains partner then attemptToPair t2 partner r
        else t2
  { s2 with pendingUsers := removeFirstWS s2.pendingUsers ws }

def onConnection (s : St) (ws : WS) : St :=
  let s1 : St := { s with opens := ws :: s.opens }
  sendMessageToClient s1 ws (Msg.statusM ("Press Connect to start."))

/-- SIGNAL handler (part_002 lines 158-163): when unpaired, nothing at all
is sent. -/
def onMsgSIGNAL (s : St) (ws : WS) (sig : String) : St :=
  match mapGet s.pairedConnections ws with
  | some partner => sendMessageToClient s partner (Msg.signalM sig)
  | none => s

def onMsgDISCONNECT (s : St) (ws : WS) (r : Bool) : St :=
  disconnectPair s ws false r

def onMsgCONNECT (s : St) (ws : WS) (r : Bool) : St :=
  let s1 := disconnectPair s ws false r
  attemptToPair s1 ws r

def onClose (s : St) (ws : WS) (r : Bool) : St :=
  let s1 : St := { s with opens := s.opens.filter (fun w => !(w == ws)) }
  disconnectPair s1 ws true r

def onError (s : St) (ws : WS) (r : Bool) : St :=
  let s1 : St := { s with opens := s.opens.filter (fun w => !(w == ws)) }
  disconnectPair s1 ws true r

end Part002A

/-! ## part_002 (second file)

Status-queue variant with timers: waitingClients holds
{ ws, status, mode } objects, attemptToPair splices the requester out
before matching (the part_000 fix), every new pair gets the 60 s timer
regardless of mode, and the fire callback enableVideoModeForPair sends
ENABLE_VIDEO without consulting the pair registry. -/

namespace Part002B

structure Client where
  ws : WS
  status : QStatus
  mode : Mode
deriving DecidableEq

structure St where
  opens : List WS
  waitingClients : List Client
  pairs : List (WS × WS)
  pairTimers : List (WS × Timer)
  log : List (WS × Msg)
deriving DecidableEq

def sendMessageToClient (s : St) (ws : WS) (m : Msg) : St :=
  if s.opens.contains ws then { s with log := s.log ++ [(ws, m)] } else s

/-- Timer callback (part_002 lines 235-242): sends ENABLE_VIDEO to both
captured handles unconditionally, then deletes the timer entries. -/
def enableVideoModeForPair (s : St) (ws1 ws2 : WS) : St :=
  let s1 := sendMessageToClient s ws1 (Msg.enableVideoM ("Video mode enabled!"))
  let s2 := sendMessageToClient s1 ws2 (Msg.enableVideoM ("Video mode enabled!"))
  { s2 with pairTimers := mapDel (mapDel s2.pairTimers ws1) ws2 }

/-- The filter pass at the top of attemptToPair (lines 248-253). -/
def validWaitingClients (s : St) : List Client :=
  s.waitingClients.filter fun c =>
    s.opens.contains c.ws && !(mapHas s.pairs c.ws) && c.status == QStatus.WAITING

/-- findIndex + splice(index, 1)[0]: first entry for the handle, if any,
and the list without it. -/
def spliceFirst : List Client → WS → Option Client × List Client
  | [], _ => (none, [])
  | c :: rest, w =>
      if c.ws = w then (some c, rest)
      else
        let pr := spliceFirst rest w
        (pr.1, c :: pr.2)

def attemptToPair (s : St) (ws : WS) : St :=
  let pr := spliceFirst (validWaitingClients s) ws
  let currentClientObj := pr.1.getD { ws := ws, status := QStatus.WAITING, mode := Mode.voice }
  match pr.2 with
  | [] =>
      let s1 : St := { s with waitingClients := [currentClientObj] }
      sendMessageToClient s1 ws
        (Msg.statusM ("Waiting for a stranger (" ++ modeStr currentClientObj.mode ++ " mode)..."))
  | partnerClient :: rest =>
      let partner := partnerClient.ws
      let s1 : St := { s with
        waitingClients := rest,
        pairs := mapSet (mapSet s.pairs ws partner) partner ws }
      let s2 := sendMessageToClient s1 ws (Msg.pairFoundM true)
      let s3 := sendMessageToClient s2 partner (Msg.pairFoundM false)
      { s3 with
        pairTimers := mapSet (mapSet s3.pairTimers ws (Timer.mk ws partner VIDEO_ENABLE_DELAY_MS))
          partner (Timer.mk ws partner VIDEO_ENABLE_DELAY_MS) }

/-- waitingClients.find + mutate status of the found entry. -/
def setStatusFirst : List Client → WS → QStatus → List Client
  | [], _, _ => []
  | c :: rest, w, st =>
      if c.ws = w then { c with status := st } :: rest
      else c :: setStatusFirst rest w st

/-- waitingClients.find + mutate status and mode of the found entry. -/
def setStatusModeFirst : List Client → WS → QStatus → Mode → List Client
  | [], _, _, _ => []
  | c :: rest, w, st, m =>
      if c.ws = w then { c with status := st, mode := m } :: rest
      else c :: setStatusModeFirst rest w st m

/-- waitingClients.findIndex + splice(index, 1). -/
def removeFirst : List Client → WS → List Client
  | [], _ => []
  | c :: rest, w => if c.ws = w then rest else c :: removeFirst rest w

def hasEntry (s : St) (w : WS) : Bool :=
  s.waitingClients.any (fun c => c.ws == w)

def disconnectPair (s : St) (ws : WS) (shouldRequeuePartner : Bool) : St :=
  let s1 :=
    match mapGet s.pairTimers ws with
    | none => s
    | some _ =>
        match mapGet s.pairs ws with
        | some p => { s with pairTimers := mapDel (mapDel s.pairTimers ws) p }
        | none => { s with pairTimers := mapDel s.pairTimers ws }
  let s2 :=
    match mapGet s.pairs ws with
    | none => s1
    | some partner =>
        let t1 := sendMessageToClient s1 partner (Msg.disconnectedM ("Your partner disconnected."))
        let t2 : St := { t1 with pairs := mapDel (mapDel t1.pairs ws) partner }
        if hasEntry t2 partner then
          if shouldRequeuePartner then
            let t3 : St := { t2 with
              waitingClients := setStatusFirst t2.waitingClients partner QStatus.WAITING }
            attemptToPair t3 partner
          else
            { t2 with waitingClients := setStatusFirst t2.waitingClients partner QStatus.DISCONNECTED }
        else
          if shouldRequeuePartner then
            let t3 : St := { t2 with
              waitingClients := t2.waitingClients ++
                [Client.mk partner QStatus.WAITING Mode.voice] }
            attemptToPair t3 partner
          else t2
  { s2 with waitingClients := setStatusFirst s2.waitingClients ws QStatus.DISCONNECTED }

def cleanupClient (s : St) (ws : WS) : St :=
  let s1 := disconnectPair s ws true
  { s1 with waitingClients := removeFirst s1.waitingClients ws }

def onConnection (s : St) (ws : WS) : St :=
  let s1 : St := { s with
    opens := ws :: s.opens,
    waitingClients := s.waitingClients ++
      [{ ws := ws, status := QStatus.DISCONNECTED, mode := Mode.voice }] }
  sendMessageToClient s1 ws (Msg.statusM ("Press Connect to start."))

def onMsgSIGNAL (s : St) (ws : WS) (sig : String) : St :=
  match mapGet s.pairs ws with
  | some partner => sendMessageToClient s partner (Msg.signalM sig)
  | none => sendMessageToClient s ws (Msg.statusM ("You are not paired."))

def onMsgDISCONNECT (s : St) (ws : WS) : St :=
  let s1 := disconnectPair s ws true
  sendMessageToClient s1 ws (Msg.statusM ("Disconnected. Press Connect for a new stranger."))

/-- CONNECT handler; m is the decoded mode of the message. -/
def onMsgCONNECT (s : St) (ws : WS) (m : Mode) : St :=
  let s1 := disconnectPair s ws false
  let s2 : St :=
    if hasEntry s1 ws then
      { s1 with waitingClients := setStatusModeFirst s1.waitingClients ws QStatus.WAITING m }
    else
      { s1 with waitingClients := s1.waitingClients ++
        [{ ws := ws, status := QStatus.WAITING, mode := m }] }
  attemptToPair s2 ws

def onClose (s : St) (ws : WS) : St :=
  let s1 : St := { s with opens := s.opens.filter (fun w => !(w == ws)) }
  cleanupClient s1 ws

def onError (s : St) (ws : WS) : St :=
  let s1 : St := { s with opens := s.opens.filter (fun w => !(w == ws)) }
  cleanupClient s1 ws

/-- Timer-fire event for the scheduled timer whose callback captured
(ws, partner). -/
def onTimerFire (s : St) (ws partner : WS) : St :=
  enableVideoModeForPair s ws partner

def initSt : St := { opens := [], waitingClients := [], pairs := [], pairTimers := [], log := [] }

/-- A transport connection only ever delivers a brand-new socket object. -/
def fresh (s : St) (ws : WS) : Prop :=
  ws ∉ s.opens ∧ (∀ c ∈ s.waitingClients, c.ws ≠ ws) ∧ mapGet s.pairs ws = none

inductive Step : St → St → Prop where
  | connect (s : St) (ws : WS) (h : fresh s ws) : Step s (onConnection s ws)
  | msgCONNECT (s : St) (ws : WS) (m : Mode) (h : ws ∈ s.opens) : Step s (onMsgCONNECT s ws m)
  | msgDISCONNECT (s : St) (ws : WS) (h : ws ∈ s.opens) : Step s (onMsgDISCONNECT s ws)
  | msgSIGNAL (s : St) (ws : WS) (sig : String) (h : ws ∈ s.opens) : Step s (onMsgSIGNAL s ws sig)
  | close (s : St) (ws : WS) (h : ws ∈ s.opens) : Step s (onClose s ws)
  | socketError (s : St) (ws : WS) (h : ws ∈ s.opens) : Step s (onError s ws)
  | timerFire (s : St) (a b d : WS) (h : mapGet s.pairTimers a = some (Timer.mk a b d)) :
      Step s (onTimerFire s a b)

inductive Reachable : St → Prop where
  | init : Reachable initSt
  | step {s t : St} : Reachable s → Step s t → Reachable t

end Part002B


/-! ## Invariants of the part_002 status-queue variant

The mutual-exclusion invariant of the claims: a paired handle has no
waiting-list entry at all, the pair registry is symmetric and irreflexive,
waiting-list entries are unique per handle, and a timer entry always
belongs to a currently linked pair, with both members holding the same
timer record. -/

namespace Part002B

def waitKeys (s : St) : List WS := s.waitingClients.map Client.ws

structure Inv (s : St) : Prop where
  nodup : (waitKeys s).Nodup
  unpaired : ∀ c ∈ s.waitingClients, mapGet s.pairs c.ws = none
  symm : ∀ a b, mapGet s.pairs a = some b → mapGet s.pairs b = some a
  irrefl : ∀ a, mapGet s.pairs a ≠ some a
  timers : ∀ w t, mapGet s.pairTimers w = some t →
      (w = t.a ∨ w = t.b) ∧ mapGet s.pairs t.a = some t.b ∧
      mapGet s.pairTimers t.a = some t ∧ mapGet s.pairTimers t.b = some t

theorem p2b_inv_congr_keys {s t : St} (h : Inv s) (hw : waitKeys t = waitKeys s)
    (hp : t.pairs = s.pairs) (ht : t.pairTimers = s.pairTimers) : Inv t := by
  constructor
  · rw [hw]; exact h.nodup
  · intro c hc
    have hm : c.ws ∈ waitKeys t := List.mem_map_of_mem _ hc
    rw [hw] at hm
    obtain ⟨c2, hc2, he⟩ := List.mem_map.mp hm
    rw [hp, ← he]
    exact h.unpaired c2 hc2
  · intro a b hab; rw [hp] at hab ⊢; exact h.symm a b hab
  · intro a; rw [hp]; exact h.irrefl a
  · intro w t hwt; rw [ht] at hwt; rw [hp, ht]; exact h.timers w t hwt

theorem p2b_send_waiting (s : St) (ws : WS) (m : Msg) :
    (sendMessageToClient s ws m).waitingClients = s.waitingClients := by
  unfold sendMessageToClient; split <;> rfl

theorem p2b_send_pairs (s : St) (ws : WS) (m : Msg) :
    (sendMessageToClient s ws m).pairs = s.pairs := by
  unfold sendMessageToClient; split <;> rfl

theorem p2b_send_timers (s : St) (ws : WS) (m : Msg) :
    (sendMessageToClient s ws m).pairTimers = s.pairTimers := by
  unfold sendMessageToClient; split <;> rfl

theorem p2b_send_opens (s : St) (ws : WS) (m : Msg) :
    (sendMessageToClient s ws m).opens = s.opens := by
  unfold sendMessageToClient; split <;> rfl

theorem p2b_valid_mem (s : St) : ∀ c ∈ validWaitingClients s, c ∈ s.waitingClients :=
  fun _ hc => (List.mem_filter.mp hc).1

theorem p2b_valid_unpaired (s : St) :
    ∀ c ∈ validWaitingClients s, mapGet s.pairs c.ws = none := by
  intro c hc
  have h2 := (List.mem_filter.mp hc).2
  simp only [Bool.and_eq_true, Bool.not_eq_true', mapHas] at h2
  cases he : mapGet s.pairs c.ws with
  | none => rfl
  | some v => rw [he] at h2; simp at h2

theorem p2b_valid_nodup (s : St) (h : (waitKeys s).Nodup) :
    ((validWaitingClients s).map Client.ws).Nodup := by
  have hs : List.Sublist (validWaitingClients s) s.waitingClients := List.filter_sublist _
  exact List.Nodup.sublist (List.Sublist.map Client.ws hs) h

theorem p2b_spliceFirst_snd_mem (l : List Client) (w : WS) :
    ∀ c ∈ (spliceFirst l w).2, c ∈ l := by
  induction l with
  | nil => simp [spliceFirst]
  | cons c rest ih =>
      by_cases hc : c.ws = w
      · simp only [spliceFirst, if_pos hc]
        intro x hx; exact List.mem_cons_of_mem _ hx
      · simp only [spliceFirst, if_neg hc]
        intro x hx
        rcases List.mem_cons.mp hx with h1 | h1
        · exact h1 ▸ List.mem_cons_self _ _
        · exact List.mem_cons_of_mem _ (ih x h1)

theorem p2b_spliceFirst_fst (l : List Client) (w : WS) :
    ∀ c, (spliceFirst l w).1 = some c → c.ws = w := by
  induction l with
  | nil => simp [spliceFirst]
  | cons c rest ih =>
      by_cases hc : c.ws = w
      · simp only [spliceFirst, if_pos hc]
        intro x hx; cases hx; exact hc
      · simp only [spliceFirst, if_neg hc]
        exact ih

theorem p2b_spliceFirst_snd_ne (l : List Client) (w : WS)
    (h : (l.map Client.ws).Nodup) : ∀ c ∈ (spliceFirst l w).2, c.ws ≠ w := by
  induction l with
  | nil => simp [spliceFirst]
  | cons c rest ih =>
      have hnd : (∀ x ∈ rest, ¬ x.ws = c.ws) ∧ (rest.map Client.ws).Nodup := by
        simpa using h
      by_cases hc : c.ws = w
      · simp only [spliceFirst, if_pos hc]
        intro x hx e
        exact hnd.1 x hx (e.trans hc.symm)
      · simp only [spliceFirst, if_neg hc]
        intro x hx
        rcases List.mem_cons.mp hx with h1 | h1
        · rw [h1]; exact hc
        · exact ih hnd.2 x h1

theorem p2b_spliceFirst_snd_nodup (l : List Client) (w : WS)
    (h : (l.map Client.ws).Nodup) : ((spliceFirst l w).2.map Client.ws).Nodup := by
  induction l with
  | nil => simp [spliceFirst]
  | cons c rest ih =>
      have hnd : (∀ x ∈ rest, ¬ x.ws = c.ws) ∧ (rest.map Client.ws).Nodup := by
        simpa using h
      by_cases hc : c.ws = w
      · simp only [spliceFirst, if_pos hc]; exact hnd.2
      · simp only [spliceFirst, if_neg hc, List.map_cons, List.nodup_cons]
        refine ⟨?_, ih hnd.2⟩
        intro hmem
        obtain ⟨x, hx, he⟩ := List.mem_map.mp hmem
        exact hnd.1 x (p2b_spliceFirst_snd_mem rest w x hx) he

theorem p2b_removeFirst_mem (l : List Client) (w : WS) :
    ∀ c ∈ removeFirst l w, c ∈ l := by
  induction l with
  | nil => simp [removeFirst]
  | cons c rest ih =>
      by_cases hc : c.ws = w
      · simp only [removeFirst, if_pos hc]
        intro x hx; exact List.mem_cons_of_mem _ hx
      · simp only [removeFirst, if_neg hc]
        intro x hx
        rcases List.mem_cons.mp hx with h1 | h1
        · exact h1 ▸ List.mem_cons_self _ _
        · exact List.mem_cons_of_mem _ (ih x h1)

theorem p2b_removeFirst_nodup (l : List Client) (w : WS)
    (h : (l.map Client.ws).Nodup) : ((removeFirst l w).map Client.ws).Nodup := by
  induction l with
  | nil => simp [removeFirst]
  | cons c rest ih =>
      have hnd : (∀ x ∈ rest, ¬ x.ws = c.ws) ∧ (rest.map Client.ws).Nodup := by
        simpa using h
      by_cases hc : c.ws = w
      · simp only [removeFirst, if_pos hc]; exact hnd.2
      · simp only [removeFirst, if_neg hc, List.map_cons, List.nodup_cons]
        refine ⟨?_, ih hnd.2⟩
        intro hmem
        obtain ⟨x, hx, he⟩ := List.mem_map.mp hmem
        exact hnd.1 x (p2b_removeFirst_mem rest w x hx) he

theorem p2b_setStatusFirst_keys (l : List Client) (w : WS) (st : QStatus) :
    (setStatusFirst l w st).map Client.ws = l.map Client.ws := by
  induction l with
  | nil => simp [setStatusFirst]
  | cons c rest ih =>
      by_cases hc : c.ws = w
      · simp [setStatusFirst, hc]
      · simp [setStatusFirst, hc, ih]

theorem p2b_setStatusModeFirst_keys (l : List Client) (w : WS) (st : QStatus) (m : Mode) :
    (setStatusModeFirst l w st m).map Client.ws = l.map Client.ws := by
  induction l with
  | nil => simp [setStatusModeFirst]
  | cons c rest ih =>
      by_cases hc : c.ws = w
      · simp [setStatusModeFirst, hc]
      · simp [setStatusModeFirst, hc, ih]

theorem p2b_no_timer_of_unpaired (s : St) (h : Inv s) (w : WS)
    (hw : mapGet s.pairs w = none) : mapGet s.pairTimers w = none := by
  cases ht : mapGet s.pairTimers w with
  | none => rfl
  | some t =>
      obtain ⟨hab, hpair, _, _⟩ := h.timers w t ht
      cases hab with
      | inl e => rw [e, hpair] at hw; simp at hw
      | inr e =>
          have h2 := h.symm _ _ hpair
          rw [e, h2] at hw; simp at hw

theorem p2b_no_timer_partner (s : St) (h : Inv s) (ws p : WS)
    (hp : mapGet s.pairs ws = some p) (ht : mapGet s.pairTimers ws = none) :
    mapGet s.pairTimers p = none := by
  cases htp : mapGet s.pairTimers p with
  | none => rfl
  | some t =>
      obtain ⟨hab, hpair, hta, htb⟩ := h.timers p t htp
      have hsym := h.symm _ _ hp
      cases hab with
      | inl e =>
          rw [← e, hsym] at hpair
          have hb : ws = t.b := Option.some.inj hpair
          rw [← hb, ht] at htb
          simp at htb
      | inr e =>
          rw [← e] at hpair
          have h2 := h.symm _ _ hpair
          rw [hsym] at h2
          have ha : ws = t.a := Option.some.inj h2
          rw [← ha, ht] at hta
          simp at hta

end Part002B

namespace Part002B

theorem p2b_attemptToPair_fields (s : St) (ws : WS) :
    ((spliceFirst (validWaitingClients s) ws).2 = [] ∧
      (attemptToPair s ws).waitingClients =
        [(spliceFirst (validWaitingClients s) ws).1.getD
          { ws := ws, status := QStatus.WAITING, mode := Mode.voice }] ∧
      (attemptToPair s ws).pairs = s.pairs ∧
      (attemptToPair s ws).pairTimers = s.pairTimers) ∨
    (∃ pc rest, (spliceFirst (validWaitingClients s) ws).2 = pc :: rest ∧
      (attemptToPair s ws).waitingClients = rest ∧
      (attemptToPair s ws).pairs = mapSet (mapSet s.pairs ws pc.ws) pc.ws ws ∧
      (attemptToPair s ws).pairTimers =
        mapSet (mapSet s.pairTimers ws (Timer.mk ws pc.ws VIDEO_ENABLE_DELAY_MS)) pc.ws
          (Timer.mk ws pc.ws VIDEO_ENABLE_DELAY_MS)) := by
  cases h2 : (spliceFirst (validWaitingClients s) ws).2 with
  | nil =>
      left
      refine ⟨rfl, ?_, ?_, ?_⟩ <;>
        simp only [attemptToPair, h2, p2b_send_waiting, p2b_send_pairs, p2b_send_timers]
  | cons pc rest =>
      right
      refine ⟨pc, rest, rfl, ?_, ?_, ?_⟩ <;>
        simp only [attemptToPair, h2, p2b_send_waiting, p2b_send_pairs, p2b_send_timers]

theorem p2b_attemptToPair_inv (s : St) (ws : WS) (hInv : Inv s)
    (hws : mapGet s.pairs ws = none) :
    Inv (attemptToPair s ws) ∧
      ∀ v, v ≠ ws → (∀ c ∈ s.waitingClients, c.ws ≠ v) →
        mapGet (attemptToPair s ws).pairs v = mapGet s.pairs v := by
  have hvn : ((validWaitingClients s).map Client.ws).Nodup := p2b_valid_nodup s hInv.nodup
  rcases p2b_attemptToPair_fields s ws with ⟨h2, hw, hp, ht⟩ | ⟨pc, rest, h2, hw, hp, ht⟩
  · have hcur : ((spliceFirst (validWaitingClients s) ws).1.getD
        { ws := ws, status := QStatus.WAITING, mode := Mode.voice }).ws = ws := by
      cases hf : (spliceFirst (validWaitingClients s) ws).1 with
      | none => simp [Option.getD]
      | some c => simp [Option.getD, p2b_spliceFirst_fst _ _ c hf]
    constructor
    · constructor
      · simp [waitKeys, hw]
      · intro c hc
        rw [hw] at hc
        have hce := List.mem_singleton.mp hc
        subst hce
        rw [hp, hcur]
        exact hws
      · intro a b hab
        rw [hp] at hab ⊢
        exact hInv.symm a b hab
      · intro a
        rw [hp]
        exact hInv.irrefl a
      · intro w t hwt
        rw [ht] at hwt
        rw [hp, ht]
        exact hInv.timers w t hwt
    · intro v _ _
      rw [hp]
  · have hpc2 : pc ∈ (spliceFirst (validWaitingClients s) ws).2 := by
      rw [h2]; exact List.mem_cons_self _ _
    have hpcv : pc ∈ validWaitingClients s := p2b_spliceFirst_snd_mem _ _ pc hpc2
    have hpcw : pc.ws ≠ ws := p2b_spliceFirst_snd_ne _ _ hvn pc hpc2
    have hpcp : mapGet s.pairs pc.ws = none := p2b_valid_unpaired s pc hpcv
    have htws : mapGet s.pairTimers ws = none := p2b_no_timer_of_unpaired s hInv ws hws
    have htpc : mapGet s.pairTimers pc.ws = none := p2b_no_timer_of_unpaired s hInv pc.ws hpcp
    have hrn2 : (∀ x ∈ rest, ¬ x.ws = pc.ws) ∧ (rest.map Client.ws).Nodup := by
      have h3 := p2b_spliceFirst_snd_nodup (validWaitingClients s) ws hvn
      rw [h2] at h3
      simpa using h3
    have hrne : ∀ c ∈ rest, c.ws ≠ ws := fun c hc =>
      p2b_spliceFirst_snd_ne _ _ hvn c (by rw [h2]; exact List.mem_cons_of_mem _ hc)
    have hru : ∀ c ∈ rest, mapGet s.pairs c.ws = none := fun c hc =>
      p2b_valid_unpaired s c (p2b_spliceFirst_snd_mem _ _ c
        (by rw [h2]; exact List.mem_cons_of_mem _ hc))
    have hPc : ∀ x, mapGet (attemptToPair s ws).pairs x =
        if x = pc.ws then some ws else if x = ws then some pc.ws else mapGet s.pairs x := by
      intro x
      rw [hp]
      by_cases h1 : x = pc.ws
      · subst h1
        rw [if_pos rfl]
        exact mapGet_set_self _ _ _
      · rw [if_neg h1, mapGet_set_ne _ _ _ _ h1]
        by_cases h0 : x = ws
        · subst h0
          rw [if_pos rfl]
          exact mapGet_set_self _ _ _
        · rw [if_neg h0, mapGet_set_ne _ _ _ _ h0]
    have hTc : ∀ x, mapGet (attemptToPair s ws).pairTimers x =
        if x = pc.ws then some (Timer.mk ws pc.ws VIDEO_ENABLE_DELAY_MS)
        else if x = ws then some (Timer.mk ws pc.ws VIDEO_ENABLE_DELAY_MS)
        else mapGet s.pairTimers x := by
      intro x
      rw [ht]
      by_cases h1 : x = pc.ws
      · subst h1
        rw [if_pos rfl]
        exact mapGet_set_self _ _ _
      · rw [if_neg h1, mapGet_set_ne _ _ _ _ h1]
        by_cases h0 : x = ws
        · subst h0
          rw [if_pos rfl]
          exact mapGet_set_self _ _ _
        · rw [if_neg h0, mapGet_set_ne _ _ _ _ h0]
    constructor
    · constructor
      · simp only [waitKeys, hw]
        exact hrn2.2
      · intro c hc
        rw [hw] at hc
        rw [hPc, if_neg (hrn2.1 c hc), if_neg (hrne c hc)]
        exact hru c hc
      · intro a b hab
        rw [hPc] at hab
        rw [hPc]
        by_cases ha1 : a = pc.ws
        · rw [if_pos ha1] at hab
          have hb := Option.some.inj hab
          subst hb
          rw [if_neg (Ne.symm hpcw), if_pos rfl, ha1]
        · rw [if_neg ha1] at hab
          by_cases ha0 : a = ws
          · rw [if_pos ha0] at hab
            have hb := Option.some.inj hab
            subst hb
            rw [if_pos rfl, ha0]
          · rw [if_neg ha0] at hab
            have hsym := hInv.symm a b hab
            have hb1 : b ≠ ws := by
              intro e
              rw [e] at hsym
              rw [hsym] at hws
              simp at hws
            have hb0 : b ≠ pc.ws := by
              intro e
              rw [e] at hsym
              rw [hsym] at hpcp
              simp at hpcp
            rw [if_neg hb0, if_neg hb1]
            exact hsym
      · intro a
        rw [hPc]
        by_cases ha1 : a = pc.ws
        · rw [if_pos ha1]
          intro e
          exact hpcw ((Option.some.inj e).trans ha1).symm
        · rw [if_neg ha1]
          by_cases ha0 : a = ws
          · rw [if_pos ha0]
            intro e
            exact hpcw (ha0 ▸ (Option.some.inj e))
          · rw [if_neg ha0]
            exact hInv.irrefl a
      · intro w t hwt
        rw [hTc] at hwt
        by_cases hw1 : w = pc.ws
        · rw [if_pos hw1] at hwt
          have htm := Option.some.inj hwt
          subst htm
          refine ⟨Or.inr hw1, ?_, ?_, ?_⟩ <;>
            simp [hPc, hTc, Ne.symm hpcw]
        · rw [if_neg hw1] at hwt
          by_cases hw0 : w = ws
          · rw [if_pos hw0] at hwt
            have htm := Option.some.inj hwt
            subst htm
            refine ⟨Or.inl hw0, ?_, ?_, ?_⟩ <;>
              simp [hPc, hTc, Ne.symm hpcw]
          · rw [if_neg hw0] at hwt
            obtain ⟨hab, hpair, hta, htb⟩ := hInv.timers w t hwt
            have hta1 : t.a ≠ pc.ws := by
              intro e; rw [e, htpc] at hta; simp at hta
            have hta0 : t.a ≠ ws := by
              intro e; rw [e, htws] at hta; simp at hta
            have htb1 : t.b ≠ pc.ws := by
              intro e; rw [e, htpc] at htb; simp at htb
            have htb0 : t.b ≠ ws := by
              intro e; rw [e, htws] at htb; simp at htb
            refine ⟨hab, ?_, ?_, ?_⟩
            · rw [hPc, if_neg hta1, if_neg hta0]
              exact hpair
            · rw [hTc, if_neg hta1, if_neg hta0]
              exact hta
            · rw [hTc, if_neg htb1, if_neg htb0]
              exact htb
    · intro v hv hvw
      have hvpc : v ≠ pc.ws := fun e => hvw pc (p2b_valid_mem s pc hpcv) e.symm
      rw [hPc, if_neg hvpc, if_neg hv]

end Part002B

namespace Part002B

theorem p2b_hasEntry_eq_false (t : St) (p : WS)
    (h : ∀ c ∈ t.waitingClients, c.ws ≠ p) : hasEntry t p = false := by
  simp only [hasEntry, List.any_eq_false]
  intro c hc
  simp [h c hc]

theorem p2b_timers_survivors (s : St) (hInv : Inv s) (ws p : WS)
    (hp : mapGet s.pairs ws = some p) (w : WS) (t : Timer)
    (ht : mapGet s.pairTimers w = some t) (hw1 : w ≠ ws) (hw2 : w ≠ p) :
    t.a ≠ ws ∧ t.a ≠ p ∧ t.b ≠ ws ∧ t.b ≠ p := by
  obtain ⟨hab, hpair, hta, htb⟩ := hInv.timers w t ht
  have hsym := hInv.symm _ _ hp
  refine ⟨?_, ?_, ?_, ?_⟩
  · intro e
    rw [e, hp] at hpair
    have hb : p = t.b := Option.some.inj hpair
    rcases hab with h | h
    · exact hw1 (h.trans e)
    · exact hw2 (h.trans hb.symm)
  · intro e
    rw [e, hsym] at hpair
    have hb : ws = t.b := Option.some.inj hpair
    rcases hab with h | h
    · exact hw2 (h.trans e)
    · exact hw1 (h.trans hb.symm)
  · intro e
    rw [e] at hpair
    have h2 := hInv.symm _ _ hpair
    rw [hp] at h2
    have ha : p = t.a := Option.some.inj h2
    rcases hab with h | h
    · exact hw2 (h.trans ha.symm)
    · exact hw1 (h.trans e)
  · intro e
    rw [e] at hpair
    have h2 := hInv.symm _ _ hpair
    rw [hsym] at h2
    have ha : ws = t.a := Option.some.inj h2
    rcases hab with h | h
    · exact hw1 (h.trans ha.symm)
    · exact hw2 (h.trans e)

theorem p2b_core_pairs_timers (s : St) (ws p : WS) (hInv : Inv s)
    (hp : mapGet s.pairs ws = some p)
    (P : List (WS × WS)) (hP : P = mapDel (mapDel s.pairs ws) p)
    (T : List (WS × Timer))
    (hT : T = s.pairTimers ∧ mapGet s.pairTimers ws = none ∨
          T = mapDel (mapDel s.pairTimers ws) p) :
    (∀ x, mapGet P x = if x = p then none else if x = ws then none else mapGet s.pairs x) ∧
    (∀ a b, mapGet P a = some b → mapGet P b = some a) ∧
    (∀ a, mapGet P a ≠ some a) ∧
    (∀ w t2, mapGet T w = some t2 →
      (w = t2.a ∨ w = t2.b) ∧ mapGet P t2.a = some t2.b ∧
      mapGet T t2.a = some t2 ∧ mapGet T t2.b = some t2) := by
  have hsym := hInv.symm _ _ hp
  have Pchar : ∀ x, mapGet P x =
      if x = p then none else if x = ws then none else mapGet s.pairs x := by
    intro x
    rw [hP]
    exact mapGet_del2 _ _ _ _
  refine ⟨Pchar, ?_, ?_, ?_⟩
  · intro a b hab
    rw [Pchar] at hab
    by_cases ha1 : a = p
    · rw [if_pos ha1] at hab; cases hab
    · rw [if_neg ha1] at hab
      by_cases ha0 : a = ws
      · rw [if_pos ha0] at hab; cases hab
      · rw [if_neg ha0] at hab
        have hso := hInv.symm a b hab
        have hb0 : b ≠ ws := by
          intro e
          rw [e, hp] at hso
          exact ha1 (Option.some.inj hso).symm
        have hb1 : b ≠ p := by
          intro e
          rw [e, hsym] at hso
          exact ha0 (Option.some.inj hso).symm
        rw [Pchar, if_neg hb1, if_neg hb0]
        exact hso
  · intro a
    rw [Pchar]
    by_cases ha1 : a = p
    · rw [if_pos ha1]; exact fun e => Option.noConfusion e
    · rw [if_neg ha1]
      by_cases ha0 : a = ws
      · rw [if_pos ha0]; exact fun e => Option.noConfusion e
      · rw [if_neg ha0]; exact hInv.irrefl a
  · intro w t2 hwt
    rcases hT with ⟨hTeq, htn⟩ | hTdel
    · rw [hTeq] at hwt
      obtain ⟨hab, hpair, hta, htb⟩ := hInv.timers w t2 hwt
      have htp : mapGet s.pairTimers p = none := p2b_no_timer_partner s hInv ws p hp htn
      have ha0 : t2.a ≠ ws := by intro e; rw [e, htn] at hta; cases hta
      have ha1 : t2.a ≠ p := by intro e; rw [e, htp] at hta; cases hta
      have hb0 : t2.b ≠ ws := by intro e; rw [e, htn] at htb; cases htb
      have hb1 : t2.b ≠ p := by intro e; rw [e, htp] at htb; cases htb
      refine ⟨hab, ?_, ?_, ?_⟩
      · rw [Pchar, if_neg ha1, if_neg ha0]; exact hpair
      · rw [hTeq]; exact hta
      · rw [hTeq]; exact htb
    · rw [hTdel, mapGet_del2] at hwt
      by_cases hw1 : w = p
      · rw [if_pos hw1] at hwt; cases hwt
      · rw [if_neg hw1] at hwt
        by_cases hw0 : w = ws
        · rw [if_pos hw0] at hwt; cases hwt
        · rw [if_neg hw0] at hwt
          obtain ⟨hab, hpair, hta, htb⟩ := hInv.timers w t2 hwt
          obtain ⟨ha0, ha1, hb0, hb1⟩ := p2b_timers_survivors s hInv ws p hp w t2 hwt hw0 hw1
          refine ⟨hab, ?_, ?_, ?_⟩
          · rw [Pchar, if_neg ha1, if_neg ha0]; exact hpair
          · rw [hTdel, mapGet_del2, if_neg ha1, if_neg ha0]; exact hta
          · rw [hTdel, mapGet_del2, if_neg hb1, if_neg hb0]; exact htb

end Part002B

namespace Part002B

theorem p2b_disconnectPair_fields (s : St) (ws p : WS) (rq : Bool)
    (hp : mapGet s.pairs ws = some p)
    (hent : ∀ c ∈ s.waitingClients, c.ws ≠ p) :
    (rq = false →
      (disconnectPair s ws rq).waitingClients =
        setStatusFirst s.waitingClients ws QStatus.DISCONNECTED ∧
      (disconnectPair s ws rq).pairs = mapDel (mapDel s.pairs ws) p ∧
      ((disconnectPair s ws rq).pairTimers = s.pairTimers ∧ mapGet s.pairTimers ws = none ∨
        (disconnectPair s ws rq).pairTimers = mapDel (mapDel s.pairTimers ws) p)) ∧
    (rq = true → ∃ t3 : St,
      (disconnectPair s ws rq).waitingClients =
        setStatusFirst (attemptToPair t3 p).waitingClients ws QStatus.DISCONNECTED ∧
      (disconnectPair s ws rq).pairs = (attemptToPair t3 p).pairs ∧
      (disconnectPair s ws rq).pairTimers = (attemptToPair t3 p).pairTimers ∧
      (disconnectPair s ws rq).opens = (attemptToPair t3 p).opens ∧
      t3.waitingClients = s.waitingClients ++ [Client.mk p QStatus.WAITING Mode.voice] ∧
      t3.pairs = mapDel (mapDel s.pairs ws) p ∧
      t3.opens = s.opens ∧
      (t3.pairTimers = s.pairTimers ∧ mapGet s.pairTimers ws = none ∨
        t3.pairTimers = mapDel (mapDel s.pairTimers ws) p)) := by
  have hE : (s.waitingClients.any fun c => c.ws == p) = false := by
    rw [List.any_eq_false]
    intro c hc
    simp [hent c hc]
  cases hT : mapGet s.pairTimers ws with
  | none =>
      constructor
      · intro hrq; subst hrq
        refine ⟨?_, ?_, Or.inl ⟨?_, rfl⟩⟩ <;>
          simp [disconnectPair, hp, hT, hasEntry, p2b_send_waiting, p2b_send_pairs,
            p2b_send_timers, hE]
      · intro hrq; subst hrq
        simp only [disconnectPair, hp, hT, hasEntry, p2b_send_waiting, hE,
          Bool.false_eq_true, if_false]
        refine ⟨_, rfl, rfl, rfl, rfl, ?_, ?_, ?_, Or.inl ⟨?_, trivial⟩⟩ <;>
          simp [p2b_send_waiting, p2b_send_pairs, p2b_send_timers, p2b_send_opens]
  | some t0 =>
      constructor
      · intro hrq; subst hrq
        refine ⟨?_, ?_, Or.inr ?_⟩ <;>
          simp [disconnectPair, hp, hT, hasEntry, p2b_send_waiting, p2b_send_pairs,
            p2b_send_timers, hE]
      · intro hrq; subst hrq
        simp only [disconnectPair, hp, hT, hasEntry, p2b_send_waiting, hE,
          Bool.false_eq_true, if_false]
        refine ⟨_, rfl, rfl, rfl, rfl, ?_, ?_, ?_, Or.inr ?_⟩ <;>
          simp [p2b_send_waiting, p2b_send_pairs, p2b_send_timers, p2b_send_opens]

end Part002B

namespace Part002B

theorem p2b_disconnectPair_inv (s : St) (ws : WS) (rq : Bool) (hInv : Inv s) :
    Inv (disconnectPair s ws rq) ∧ mapGet (disconnectPair s ws rq).pairs ws = none := by
  cases hp : mapGet s.pairs ws with
  | none =>
      have hT : mapGet s.pairTimers ws = none := p2b_no_timer_of_unpaired s hInv ws hp
      have heq : disconnectPair s ws rq =
          { s with waitingClients := setStatusFirst s.waitingClients ws QStatus.DISCONNECTED } := by
        simp [disconnectPair, hp, hT]
      rw [heq]
      refine ⟨p2b_inv_congr_keys hInv ?_ rfl rfl, hp⟩
      simp [waitKeys, p2b_setStatusFirst_keys]
  | some p =>
      have hppw : ws ≠ p := by
        intro e; rw [← e] at hp; exact hInv.irrefl ws hp
      have hsym := hInv.symm _ _ hp
      have hwsn : ∀ c ∈ s.waitingClients, c.ws ≠ ws := by
        intro c hc e
        have hu := hInv.unpaired c hc
        rw [e, hp] at hu; cases hu
      have hpn : ∀ c ∈ s.waitingClients, c.ws ≠ p := by
        intro c hc e
        have hu := hInv.unpaired c hc
        rw [e, hsym] at hu; cases hu
      obtain ⟨hF, hTr⟩ := p2b_disconnectPair_fields s ws p rq hp hpn
      cases rq with
      | false =>
          obtain ⟨hW, hP, hT2⟩ := hF rfl
          obtain ⟨Pchar, Psymm, Pirr, Ptim⟩ :=
            p2b_core_pairs_timers s ws p hInv hp _ hP _ hT2
          refine ⟨⟨?_, ?_, Psymm, Pirr, Ptim⟩, ?_⟩
          · simp only [waitKeys, hW, p2b_setStatusFirst_keys]
            exact hInv.nodup
          · intro c hc
            rw [hW] at hc
            have hkm : c.ws ∈ s.waitingClients.map Client.ws := by
              have hmm := List.mem_map_of_mem Client.ws hc
              rwa [p2b_setStatusFirst_keys] at hmm
            obtain ⟨c0, hc0, he0⟩ := List.mem_map.mp hkm
            have h1 : c.ws ≠ p := by rw [← he0]; exact hpn c0 hc0
            have h0 : c.ws ≠ ws := by rw [← he0]; exact hwsn c0 hc0
            rw [Pchar, if_neg h1, if_neg h0, ← he0]
            exact hInv.unpaired c0 hc0
          · rw [Pchar, if_neg hppw, if_pos rfl]
      | true =>
          obtain ⟨t3, hW, hP, hT3, hO, h3W, h3P, h3O, h3T⟩ := hTr rfl
          obtain ⟨Pchar, Psymm, Pirr, Ptim⟩ :=
            p2b_core_pairs_timers s ws p hInv hp t3.pairs h3P t3.pairTimers h3T
          have hInv3 : Inv t3 := by
            constructor
            · have hkeq : waitKeys t3 = s.waitingClients.map Client.ws ++ [p] := by
                simp [waitKeys, h3W]
              rw [hkeq, List.nodup_append]
              refine ⟨hInv.nodup, List.nodup_singleton p, ?_⟩
              intro a ha hb
              obtain ⟨c0, hc0, he0⟩ := List.mem_map.mp ha
              rw [List.mem_singleton] at hb
              exact hpn c0 hc0 (he0.trans hb)
            · intro c hc
              rw [h3W] at hc
              rcases List.mem_append.mp hc with h1 | h1
              · rw [Pchar, if_neg (hpn c h1), if_neg (hwsn c h1)]
                exact hInv.unpaired c h1
              · rw [List.mem_singleton] at h1
                subst h1
                rw [Pchar]
                simp
            · exact Psymm
            · exact Pirr
            · exact Ptim
          have hp3 : mapGet t3.pairs p = none := by
            rw [Pchar, if_pos rfl]
          obtain ⟨hInv4, hpres⟩ := p2b_attemptToPair_inv t3 p hInv3 hp3
          refine ⟨?_, ?_⟩
          · refine p2b_inv_congr_keys hInv4 ?_ hP hT3
            simp only [waitKeys, hW, p2b_setStatusFirst_keys]
          · have hq : ∀ c ∈ t3.waitingClients, c.ws ≠ ws := by
              intro c hc
              rw [h3W] at hc
              rcases List.mem_append.mp hc with h1 | h1
              · exact hwsn c h1
              · rw [List.mem_singleton] at h1
                subst h1
                simpa using Ne.symm hppw
            rw [hP, hpres ws hppw hq, Pchar, if_neg hppw, if_pos rfl]

end Part002B

namespace Part002B

theorem p2b_onConnection_inv (s : St) (ws : WS) (hInv : Inv s) (hf : fresh s ws) :
    Inv (onConnection s ws) := by
  obtain ⟨-, hfw, hfp⟩ := hf
  have hW : (onConnection s ws).waitingClients =
      s.waitingClients ++ [Client.mk ws QStatus.DISCONNECTED Mode.voice] := by
    simp [onConnection, p2b_send_waiting]
  have hP : (onConnection s ws).pairs = s.pairs := by
    simp [onConnection, p2b_send_pairs]
  have hT : (onConnection s ws).pairTimers = s.pairTimers := by
    simp [onConnection, p2b_send_timers]
  constructor
  · have hkeq : waitKeys (onConnection s ws) = s.waitingClients.map Client.ws ++ [ws] := by
      simp [waitKeys, hW]
    rw [hkeq, List.nodup_append]
    refine ⟨hInv.nodup, List.nodup_singleton ws, ?_⟩
    intro x hx hb
    obtain ⟨c0, hc0, he0⟩ := List.mem_map.mp hx
    rw [List.mem_singleton] at hb
    exact hfw c0 hc0 (he0.trans hb)
  · intro c hc
    rw [hW] at hc
    rw [hP]
    rcases List.mem_append.mp hc with h1 | h1
    · exact hInv.unpaired c h1
    · rw [List.mem_singleton] at h1
      subst h1
      simpa using hfp
  · intro x y hxy
    rw [hP] at hxy ⊢
    exact hInv.symm x y hxy
  · intro x
    rw [hP]
    exact hInv.irrefl x
  · intro w t hwt
    rw [hT] at hwt
    rw [hP, hT]
    exact hInv.timers w t hwt

theorem p2b_onMsgCONNECT_inv (s : St) (ws : WS) (m : Mode) (hInv : Inv s) :
    Inv (onMsgCONNECT s ws m) := by
  obtain ⟨h1, h1p⟩ := p2b_disconnectPair_inv s ws false hInv
  simp only [onMsgCONNECT]
  split
  case isTrue hE =>
      have h2 : Inv { disconnectPair s ws false with
          waitingClients :=
            setStatusModeFirst (disconnectPair s ws false).waitingClients ws QStatus.WAITING m } :=
        p2b_inv_congr_keys h1 (by simp [waitKeys, p2b_setStatusModeFirst_keys]) rfl rfl
      exact (p2b_attemptToPair_inv _ ws h2 h1p).1
  case isFalse hE =>
      have hnot : ∀ c ∈ (disconnectPair s ws false).waitingClients, c.ws ≠ ws := by
        intro c hc e
        apply hE
        simp only [hasEntry, List.any_eq_true]
        exact ⟨c, hc, by simp [e]⟩
      have h2 : Inv { disconnectPair s ws false with
          waitingClients := (disconnectPair s ws false).waitingClients ++
            [Client.mk ws QStatus.WAITING m] } := by
        constructor
        · have hkeq : waitKeys { disconnectPair s ws false with
              waitingClients := (disconnectPair s ws false).waitingClients ++
                [Client.mk ws QStatus.WAITING m] } =
              (disconnectPair s ws false).waitingClients.map Client.ws ++ [ws] := by
            simp [waitKeys]
          rw [hkeq, List.nodup_append]
          refine ⟨h1.nodup, List.nodup_singleton ws, ?_⟩
          intro x hx hb
          obtain ⟨c0, hc0, he0⟩ := List.mem_map.mp hx
          rw [List.mem_singleton] at hb
          exact hnot c0 hc0 (he0.trans hb)
        · intro c hc
          rcases List.mem_append.mp hc with hc1 | hc1
          · exact h1.unpaired c hc1
          · rw [List.mem_singleton] at hc1
            subst hc1
            simpa using h1p
        · exact h1.symm
        · exact h1.irrefl
        · exact h1.timers
      exact (p2b_attemptToPair_inv _ ws h2 h1p).1

theorem p2b_onMsgDISCONNECT_inv (s : St) (ws : WS) (hInv : Inv s) :
    Inv (onMsgDISCONNECT s ws) := by
  obtain ⟨h1, -⟩ := p2b_disconnectPair_inv s ws true hInv
  refine p2b_inv_congr_keys h1 ?_ ?_ ?_ <;>
    simp [onMsgDISCONNECT, waitKeys, p2b_send_waiting, p2b_send_pairs, p2b_send_timers]

theorem p2b_onMsgSIGNAL_inv (s : St) (ws : WS) (sig : String) (hInv : Inv s) :
    Inv (onMsgSIGNAL s ws sig) := by
  refine p2b_inv_congr_keys hInv ?_ ?_ ?_ <;>
    · unfold onMsgSIGNAL
      cases mapGet s.pairs ws <;>
        simp [waitKeys, p2b_send_waiting, p2b_send_pairs, p2b_send_timers]

theorem p2b_cleanupClient_inv (s : St) (ws : WS) (hInv : Inv s) :
    Inv (cleanupClient s ws) := by
  obtain ⟨h1, -⟩ := p2b_disconnectPair_inv s ws true hInv
  simp only [cleanupClient]
  constructor
  · exact p2b_removeFirst_nodup _ _ h1.nodup
  · intro c hc
    exact h1.unpaired c (p2b_removeFirst_mem _ _ c hc)
  · exact h1.symm
  · exact h1.irrefl
  · exact h1.timers

theorem p2b_onClose_inv (s : St) (ws : WS) (hInv : Inv s) : Inv (onClose s ws) := by
  unfold onClose
  exact p2b_cleanupClient_inv _ _ (p2b_inv_congr_keys hInv rfl rfl rfl)

theorem p2b_onError_inv (s : St) (ws : WS) (hInv : Inv s) : Inv (onError s ws) := by
  unfold onError
  exact p2b_cleanupClient_inv _ _ (p2b_inv_congr_keys hInv rfl rfl rfl)

theorem p2b_onTimerFire_inv (s : St) (a b d : WS) (hInv : Inv s)
    (h : mapGet s.pairTimers a = some (Timer.mk a b d)) : Inv (onTimerFire s a b) := by
  obtain ⟨-, hpair, hta, htb⟩ := hInv.timers a _ h
  have hpair2 : mapGet s.pairs a = some b := hpair
  have hW : (onTimerFire s a b).waitingClients = s.waitingClients := by
    simp [onTimerFire, enableVideoModeForPair, p2b_send_waiting]
  have hP : (onTimerFire s a b).pairs = s.pairs := by
    simp [onTimerFire, enableVideoModeForPair, p2b_send_pairs]
  have hT : (onTimerFire s a b).pairTimers = mapDel (mapDel s.pairTimers a) b := by
    simp [onTimerFire, enableVideoModeForPair, p2b_send_timers]
  constructor
  · have hkeq : waitKeys (onTimerFire s a b) = waitKeys s := by
      simp [waitKeys, hW]
    rw [hkeq]
    exact hInv.nodup
  · intro c hc
    rw [hW] at hc
    rw [hP]
    exact hInv.unpaired c hc
  · intro x y hxy
    rw [hP] at hxy ⊢
    exact hInv.symm x y hxy
  · intro x
    rw [hP]
    exact hInv.irrefl x
  · intro w t hwt
    rw [hT, mapGet_del2] at hwt
    by_cases hw1 : w = b
    · rw [if_pos hw1] at hwt; cases hwt
    · rw [if_neg hw1] at hwt
      by_cases hw0 : w = a
      · rw [if_pos hw0] at hwt; cases hwt
      · rw [if_neg hw0] at hwt
        obtain ⟨hab2, hpair3, hta2, htb2⟩ := hInv.timers w t hwt
        obtain ⟨ha0, ha1, hb0, hb1⟩ :=
          p2b_timers_survivors s hInv a b hpair2 w t hwt hw0 hw1
        refine ⟨hab2, ?_, ?_, ?_⟩
        · rw [hP]
          exact hpair3
        · rw [hT, mapGet_del2, if_neg ha1, if_neg ha0]
          exact hta2
        · rw [hT, mapGet_del2, if_neg hb1, if_neg hb0]
          exact htb2

theorem p2b_step_inv {s t : St} (hInv : Inv s) (hs : Step s t) : Inv t := by
  cases hs with
  | connect ws h => exact p2b_onConnection_inv s ws hInv h
  | msgCONNECT ws m h => exact p2b_onMsgCONNECT_inv s ws m hInv
  | msgDISCONNECT ws h => exact p2b_onMsgDISCONNECT_inv s ws hInv
  | msgSIGNAL ws sig h => exact p2b_onMsgSIGNAL_inv s ws sig hInv
  | close ws h => exact p2b_onClose_inv s ws hInv
  | socketError ws h => exact p2b_onError_inv s ws hInv
  | timerFire a b d h => exact p2b_onTimerFire_inv s a b d hInv h

theorem p2b_reachable_inv {s : St} (h : Reachable s) : Inv s := by
  induction h with
  | init =>
      constructor <;> simp [initSt, waitKeys, mapGet]
  | step hr hstep ih => exact p2b_step_inv ih hstep

end Part002B

/-! ## Lookup lemmas for the double Map.set pattern used at pairing time -/

theorem mapGet_link_fst (P : List (Nat × Nat)) (a b : Nat) :
    mapGet (mapSet (mapSet P a b) b a) a = some b := by
  by_cases h : b = a
  · subst h
    exact mapGet_set_self _ _ _
  · rw [mapGet_set_ne _ _ _ _ (Ne.symm h)]
    exact mapGet_set_self _ _ _

theorem mapGet_link_snd (P : List (Nat × Nat)) (a b : Nat) :
    mapGet (mapSet (mapSet P a b) b a) b = some a :=
  mapGet_set_self _ _ _

theorem mapGet_link_other {α : Type} (P : List (Nat × α)) (a b : Nat) (va vb : α) (v : Nat)
    (h1 : v ≠ a) (h2 : v ≠ b) :
    mapGet (mapSet (mapSet P a va) b vb) v = mapGet P v := by
  rw [mapGet_set_ne _ _ _ _ h2, mapGet_set_ne _ _ _ _ h1]

theorem mapGet_tset_fst {α : Type} (T : List (Nat × α)) (a b : Nat) (t : α) :
    mapGet (mapSet (mapSet T a t) b t) a = some t := by
  by_cases h : a = b
  · rw [h]
    exact mapGet_set_self _ _ _
  · rw [mapGet_set_ne _ _ _ _ h]
    exact mapGet_set_self _ _ _

theorem mapGet_tset_snd {α : Type} (T : List (Nat × α)) (a b : Nat) (t : α) :
    mapGet (mapSet (mapSet T a t) b t) b = some t :=
  mapGet_set_self _ _ _

namespace Part001

theorem p1_send_voiceQ (s : St) (ws : WS) (m : Msg) :
    (sendMessageToClient s ws m).voiceQ = s.voiceQ := by
  unfold sendMessageToClient; split <;> rfl

theorem p1_send_videoQ (s : St) (ws : WS) (m : Msg) :
    (sendMessageToClient s ws m).videoQ = s.videoQ := by
  unfold sendMessageToClient; split <;> rfl

theorem p1_send_pairs (s : St) (ws : WS) (m : Msg) :
    (sendMessageToClient s ws m).pairedConnections = s.pairedConnections := by
  unfold sendMessageToClient; split <;> rfl

theorem p1_send_timers (s : St) (ws : WS) (m : Msg) :
    (sendMessageToClient s ws m).videoTimers = s.videoTimers := by
  unfold sendMessageToClient; split <;> rfl

theorem p1_send_opens (s : St) (ws : WS) (m : Msg) :
    (sendMessageToClient s ws m).opens = s.opens := by
  unfold sendMessageToClient; split <;> rfl

theorem p1_send_log_open (s : St) (ws : WS) (m : Msg) (h : s.opens.contains ws = true) :
    (sendMessageToClient s ws m).log = s.log ++ [(ws, m)] := by
  unfold sendMessageToClient
  rw [if_pos h]

theorem p1_send_getQ (s : St) (ws : WS) (m : Msg) (mo : Mode) :
    getQ (sendMessageToClient s ws m) mo = getQ s mo := by
  cases mo <;> simp [getQ, p1_send_voiceQ, p1_send_videoQ]

theorem p1_getQ_setQ (s : St) (m : Mode) (q : List PC) : getQ (setQ s m q) m = q := by
  cases m <;> rfl

theorem p1_setQ_pairs (s : St) (m : Mode) (q : List PC) :
    (setQ s m q).pairedConnections = s.pairedConnections := by
  cases m <;> rfl

theorem p1_setQ_timers (s : St) (m : Mode) (q : List PC) :
    (setQ s m q).videoTimers = s.videoTimers := by
  cases m <;> rfl

theorem p1_setQ_opens (s : St) (m : Mode) (q : List PC) :
    (setQ s m q).opens = s.opens := by
  cases m <;> rfl

theorem p1_setQ_log (s : St) (m : Mode) (q : List PC) :
    (setQ s m q).log = s.log := by
  cases m <;> rfl

theorem p1_attemptToPair_nil (s : St) (ws : WS) (m : Mode)
    (h : filteredQueue s m = []) :
    (attemptToPair s ws m).pairedConnections = s.pairedConnections ∧
    (attemptToPair s ws m).videoTimers = s.videoTimers ∧
    getQ (attemptToPair s ws m) m = [PC.mk ws m] := by
  refine ⟨?_, ?_, ?_⟩ <;>
    simp [attemptToPair, h, p1_send_pairs, p1_send_timers, p1_send_getQ,
      p1_setQ_pairs, p1_setQ_timers, p1_getQ_setQ]

theorem p1_attemptToPair_cons (s : St) (ws : WS) (m : Mode) (pc : PC) (rest : List PC)
    (h : filteredQueue s m = pc :: rest) :
    mapGet (attemptToPair s ws m).pairedConnections ws = some pc.ws ∧
    mapGet (attemptToPair s ws m).pairedConnections pc.ws = some ws ∧
    (∀ v, v ≠ ws → v ≠ pc.ws →
      mapGet (attemptToPair s ws m).pairedConnections v = mapGet s.pairedConnections v) ∧
    getQ (attemptToPair s ws m) m = rest ∧
    (m = Mode.video → (attemptToPair s ws m).videoTimers = s.videoTimers) ∧
    (m = Mode.voice →
      mapGet (attemptToPair s ws m).videoTimers ws =
        some (Timer.mk ws pc.ws VIDEO_ENABLE_DELAY_MS) ∧
      mapGet (attemptToPair s ws m).videoTimers pc.ws =
        some (Timer.mk ws pc.ws VIDEO_ENABLE_DELAY_MS)) := by
  have hP : (attemptToPair s ws m).pairedConnections =
      mapSet (mapSet s.pairedConnections ws pc.ws) pc.ws ws := by
    cases m <;>
      simp [attemptToPair, h, p1_send_pairs, p1_setQ_pairs]
  have hQ : getQ (attemptToPair s ws m) m = rest := by
    cases m <;>
      simp [attemptToPair, h, getQ, setQ, p1_send_voiceQ, p1_send_videoQ]
  have hT : m = Mode.voice →
      (attemptToPair s ws m).videoTimers =
        mapSet (mapSet s.videoTimers ws (Timer.mk ws pc.ws VIDEO_ENABLE_DELAY_MS)) pc.ws
          (Timer.mk ws pc.ws VIDEO_ENABLE_DELAY_MS) := by
    intro hm
    subst hm
    simp [attemptToPair, h, p1_send_timers, p1_setQ_timers]
  have hT2 : m = Mode.video → (attemptToPair s ws m).videoTimers = s.videoTimers := by
    intro hm
    subst hm
    simp [attemptToPair, h, p1_send_timers, p1_setQ_timers]
  refine ⟨?_, ?_, ?_, hQ, hT2, ?_⟩
  · rw [hP]
    exact mapGet_link_fst _ _ _
  · rw [hP]
    exact mapGet_link_snd _ _ _
  · intro v h1 h2
    rw [hP]
    exact mapGet_link_other _ _ _ _ _ v h1 h2
  · intro hm
    rw [hT hm]
    exact ⟨mapGet_tset_fst _ _ _ _, mapGet_tset_snd _ _ _ _⟩

end Part001

theorem contains_filter_ne (l : List Nat) (x y : Nat) (h : l.contains y = true)
    (hne : y ≠ x) : (l.filter (fun w => !(w == x))).contains y = true := by
  have hm : y ∈ l := by simpa using h
  have hmem : y ∈ l.filter (fun w => !(w == x)) := by
    rw [List.mem_filter]
    exact ⟨hm, by simp [hne]⟩
  simpa using hmem

namespace Part002A

theorem p2a_send_pending (s : St) (ws : WS) (m : Msg) :
    (sendMessageToClient s ws m).pendingUsers = s.pendingUsers := by
  unfold sendMessageToClient; split <;> rfl

theorem p2a_send_pairs (s : St) (ws : WS) (m : Msg) :
    (sendMessageToClient s ws m).pairedConnections = s.pairedConnections := by
  unfold sendMessageToClient; split <;> rfl

theorem p2a_send_timers (s : St) (ws : WS) (m : Msg) :
    (sendMessageToClient s ws m).videoTimers = s.videoTimers := by
  unfold sendMessageToClient; split <;> rfl

theorem p2a_send_opens (s : St) (ws : WS) (m : Msg) :
    (sendMessageToClient s ws m).opens = s.opens := by
  unfold sendMessageToClient; split <;> rfl

theorem p2a_send_log_open (s : St) (ws : WS) (m : Msg) (h : s.opens.contains ws = true) :
    (sendMessageToClient s ws m).log = s.log ++ [(ws, m)] := by
  unfold sendMessageToClient
  rw [if_pos h]

theorem p2a_disconnectPair_rq_empty (s : St) (x y : WS) (r : Bool)
    (hp : mapGet s.pairedConnections x = some y)
    (hyo : s.opens.contains y = true)
    (hq : s.pendingUsers = [])
    (hne : x ≠ y) :
    (disconnectPair s x true r).log = s.log ++
      [(y, Msg.disconnectedM ("Your partner disconnected.")),
       (y, Msg.statusM ("Searching for a stranger..."))] ∧
    (disconnectPair s x true r).pendingUsers = [y] ∧
    mapGet (disconnectPair s x true r).pairedConnections x = none ∧
    mapGet (disconnectPair s x true r).pairedConnections y = none ∧
    mapGet (disconnectPair s x true r).videoTimers x = none ∧
    (disconnectPair s x true r).opens = s.opens := by
  have hym : y ∈ s.opens := by simpa using hyo
  cases hT : mapGet s.videoTimers x with
  | none =>
      refine ⟨?_, ?_, ?_, ?_, ?_, ?_⟩ <;>
        simp [disconnectPair, hp, hT, hq, availableUsers, attemptToPair,
          sendMessageToClient, hym, removeFirstWS, hne, Ne.symm hne,
          p2a_send_pending, p2a_send_pairs, p2a_send_timers, p2a_send_opens,
          mapGet_del2]
  | some t0 =>
      refine ⟨?_, ?_, ?_, ?_, ?_, ?_⟩ <;>
        simp [disconnectPair, hp, hT, hq, availableUsers, attemptToPair,
          sendMessageToClient, hym, removeFirstWS, hne, Ne.symm hne,
          p2a_send_pending, p2a_send_pairs, p2a_send_timers, p2a_send_opens,
          mapGet_del2]

end Part002A

namespace Part001

theorem p1_disconnectPair_norq (s : St) (ws p : WS)
    (hp : mapGet s.pairedConnections ws = some p)
    (hpo : s.opens.contains p = true) :
    (disconnectPair s ws false).log =
      s.log ++ [(p, Msg.disconnectedM ("Your partner disconnected."))] ∧
    (disconnectPair s ws false).pairedConnections = mapDel (mapDel s.pairedConnections ws) p ∧
    (disconnectPair s ws false).voiceQ = s.voiceQ.filter (fun c => !(c.ws == ws)) ∧
    (disconnectPair s ws false).videoQ = s.videoQ.filter (fun c => !(c.ws == ws)) ∧
    (disconnectPair s ws false).opens = s.opens ∧
    ((mapGet s.videoTimers ws = none ∧ (disconnectPair s ws false).videoTimers = s.videoTimers) ∨
      (disconnectPair s ws false).videoTimers = mapDel (mapDel s.videoTimers ws) p) := by
  have hpm : p ∈ s.opens := by simpa using hpo
  cases hT : mapGet s.videoTimers ws with
  | none =>
      refine ⟨?_, ?_, ?_, ?_, ?_, Or.inl ⟨rfl, ?_⟩⟩ <;>
        simp [disconnectPair, hp, hT, sendMessageToClient, hpm]
  | some t0 =>
      refine ⟨?_, ?_, ?_, ?_, ?_, Or.inr ?_⟩ <;>
        simp [disconnectPair, hp, hT, sendMessageToClient, hpm]

end Part001

/-! ## Claims -/

/-- C1 (amended): in the mode-partitioned variant (part_001, first file), when
a paired client sends DISCONNECT, the partner is sent exactly one DISCONNECTED
notification and is NOT requeued into either pending queue; the sender is
unlinked (both pair-registry directions removed), the timer entries of both
sides are gone afterwards, the sender is removed from every queue, and the
sender receives the confirmation STATUS.  The index.js variant instead
requeues the partner automatically (see the counterexample). -/
theorem C1_disconnect_no_requeue (s : Part001.St) (ws p : WS)
    (hp : mapGet s.pairedConnections ws = some p)
    (hne : ws ≠ p)
    (hvq : ∀ c ∈ s.voiceQ, c.ws ≠ p)
    (hdq : ∀ c ∈ s.videoQ, c.ws ≠ p)
    (hpo : s.opens.contains p = true)
    (hwo : s.opens.contains ws = true)
    (htc : mapGet s.videoTimers ws = none → mapGet s.videoTimers p = none) :
    (Part001.onMsgDISCONNECT s ws).log = s.log ++
      [(p, Msg.disconnectedM ("Your partner disconnected.")),
       (ws, Msg.statusM ("Disconnected. Press Connect for a new stranger."))] ∧
    mapGet (Part001.onMsgDISCONNECT s ws).pairedConnections ws = none ∧
    mapGet (Part001.onMsgDISCONNECT s ws).pairedConnections p = none ∧
    (∀ c ∈ (Part001.onMsgDISCONNECT s ws).voiceQ, c.ws ≠ p ∧ c.ws ≠ ws) ∧
    (∀ c ∈ (Part001.onMsgDISCONNECT s ws).videoQ, c.ws ≠ p ∧ c.ws ≠ ws) ∧
    mapGet (Part001.onMsgDISCONNECT s ws).videoTimers ws = none ∧
    mapGet (Part001.onMsgDISCONNECT s ws).videoTimers p = none := by
  obtain ⟨hL, hP, hV, hD, hO, hT6⟩ := Part001.p1_disconnectPair_norq s ws p hp hpo
  have hsd : Part001.onMsgDISCONNECT s ws =
      Part001.sendMessageToClient (Part001.disconnectPair s ws false) ws
        (Msg.statusM ("Disconnected. Press Connect for a new stranger.")) := rfl
  have hwo2 : (Part001.disconnectPair s ws false).opens.contains ws = true := by
    rw [hO]; exact hwo
  refine ⟨?_, ?_, ?_, ?_, ?_, ?_, ?_⟩
  · rw [hsd, Part001.p1_send_log_open _ _ _ hwo2, hL, List.append_assoc]
    rfl
  · rw [hsd, Part001.p1_send_pairs, hP, mapGet_del2, if_neg hne, if_pos rfl]
  · rw [hsd, Part001.p1_send_pairs, hP, mapGet_del2, if_pos rfl]
  · intro c hc
    rw [hsd, Part001.p1_send_voiceQ, hV, List.mem_filter] at hc
    refine ⟨hvq c hc.1, ?_⟩
    have h2 := hc.2
    simpa using h2
  · intro c hc
    rw [hsd, Part001.p1_send_videoQ, hD, List.mem_filter] at hc
    refine ⟨hdq c hc.1, ?_⟩
    have h2 := hc.2
    simpa using h2
  · rcases hT6 with ⟨hTn, hTeq⟩ | hTd
    · rw [hsd, Part001.p1_send_timers, hTeq]
      exact hTn
    · rw [hsd, Part001.p1_send_timers, hTd, mapGet_del2, if_neg hne, if_pos rfl]
  · rcases hT6 with ⟨hTn, hTeq⟩ | hTd
    · rw [hsd, Part001.p1_send_timers, hTeq]
      exact htc hTn
    · rw [hsd, Part001.p1_send_timers, hTd, mapGet_del2, if_pos rfl]

def c1WitnessSt : Part001.St :=
  { opens := [1, 2], voiceQ := [], videoQ := [],
    pairedConnections := [(1, 2), (2, 1)],
    videoTimers := [(1, Timer.mk 1 2 60000), (2, Timer.mk 1 2 60000)], log := [] }

/-- Witness for C1 at a concrete voice pair with a live timer. -/
theorem C1_disconnect_no_requeue_witness :
    mapGet (Part001.onMsgDISCONNECT c1WitnessSt 1).pairedConnections 1 = none ∧
    (∀ c ∈ (Part001.onMsgDISCONNECT c1WitnessSt 1).voiceQ, c.ws ≠ 2 ∧ c.ws ≠ 1) ∧
    mapGet (Part001.onMsgDISCONNECT c1WitnessSt 1).videoTimers 1 = none := by
  have h := C1_disconnect_no_requeue c1WitnessSt 1 2 (by decide) (by decide)
    (by decide) (by decide) (by decide) (by decide) (by decide)
  exact ⟨h.2.1, h.2.2.2.1, h.2.2.2.2.2.1⟩

def c1CexSt : IndexJs.St :=
  { opens := [1, 2], waitingClients := [], pairs := [(1, 2), (2, 1)], log := [] }

/-- C1 counterexample: in index.js a DISCONNECT from client 1, paired with
client 2, automatically requeues client 2 — afterwards 2 holds a WAITING
queue entry and was sent the waiting STATUS, contradicting the claim that the
partner is not automatically requeued. -/
theorem C1_cex_index_requeues :
    (IndexJs.onMsgDISCONNECT c1CexSt 1).waitingClients =
      [IndexJs.Entry.mk 2 QStatus.WAITING, IndexJs.Entry.mk 1 QStatus.DISCONNECTED] ∧
    (IndexJs.onMsgDISCONNECT c1CexSt 1).log =
      [(2, Msg.disconnectedM ("Your partner disconnected.")),
       (2, Msg.statusM ("Waiting for a stranger...")),
       (1, Msg.statusM ("Disconnected. Press Connect for a new stranger."))] := by
  decide

/-- C2: in every reachable state of the part_002 status-queue variant, a
handle with any waiting-list entry is never simultaneously in the pair
registry (so each handle is in exactly one of the three conditions), and an
escalation timer entry exists only for a currently paired handle. -/
theorem C2_state_exclusivity (s : Part002B.St) (h : Part002B.Reachable s) (w : WS) :
    ¬ ((∃ c ∈ s.waitingClients, c.ws = w) ∧ (mapGet s.pairs w).isSome = true) ∧
    ((mapGet s.pairTimers w).isSome = true → (mapGet s.pairs w).isSome = true) := by
  have hInv := Part002B.p2b_reachable_inv h
  constructor
  · rintro ⟨⟨c, hc, hcw⟩, hp⟩
    have hu := hInv.unpaired c hc
    rw [hcw] at hu
    rw [hu] at hp
    cases hp
  · intro ht
    cases hto : mapGet s.pairTimers w with
    | none => rw [hto] at ht; cases ht
    | some t =>
        obtain ⟨hab, hpair, -, -⟩ := hInv.timers w t hto
        rcases hab with e | e
        · rw [e, hpair]; rfl
        · have h2 := hInv.symm _ _ hpair
          rw [e, h2]; rfl

def c2w0 : Part002B.St := Part002B.initSt

def c2w1 : Part002B.St := Part002B.onConnection c2w0 1

def c2w2 : Part002B.St := Part002B.onConnection c2w1 2

def c2w3 : Part002B.St := Part002B.onMsgCONNECT c2w2 1 Mode.voice

def c2w4 : Part002B.St := Part002B.onMsgCONNECT c2w3 2 Mode.voice

theorem c2w4_reachable : Part002B.Reachable c2w4 :=
  Part002B.Reachable.step
    (Part002B.Reachable.step
      (Part002B.Reachable.step
        (Part002B.Reachable.step Part002B.Reachable.init
          (Part002B.Step.connect c2w0 1 ⟨by decide, by decide, by decide⟩))
        (Part002B.Step.connect c2w1 2 ⟨by decide, by decide, by decide⟩))
      (Part002B.Step.msgCONNECT c2w2 1 Mode.voice (by decide)))
    (Part002B.Step.msgCONNECT c2w3 2 Mode.voice (by decide))

/-- Witness for C2 at the reachable state where clients 1 and 2 are paired in
voice mode with a live timer. -/
theorem C2_state_exclusivity_witness :
    ¬ ((∃ c ∈ c2w4.waitingClients, c.ws = 1) ∧ (mapGet c2w4.pairs 1).isSome = true) ∧
    ((mapGet c2w4.pairTimers 1).isSome = true → (mapGet c2w4.pairs 1).isSome = true) :=
  C2_state_exclusivity c2w4 c2w4_reachable 1

/-- C3 (code bug in index.js): attemptToPair does not exclude the requester
from the filtered waiting list, so a single connected client that sends
CONNECT on an empty server is paired with itself — pairs.get(1) = 1 — and
receives both PAIR_FOUND messages, violating the claim that the pair registry
only ever links two distinct handles.  The part_000 variant fixes this by
splicing the requester out before matching. -/
theorem C3_index_self_pair :
    mapGet (IndexJs.onMsgCONNECT (IndexJs.onConnection IndexJs.initSt 1) 1).pairs 1 = some 1 ∧
    (IndexJs.onMsgCONNECT (IndexJs.onConnection IndexJs.initSt 1) 1).log =
      [(1, Msg.statusM ("Press Connect to start.")),
       (1, Msg.pairFoundM true), (1, Msg.pairFoundM false)] := by
  decide

/-- C4: matching in part_001 is FIFO with lazy stale-entry cleanup: after
discarding stale entries (closed or already-paired sockets), a requester is
paired with the head of the remaining queue — the oldest entry — which is
removed; if no valid entry remains, the requester is enqueued at the tail of
the (now clean) queue. -/
theorem C4_fifo_matching (s : Part001.St) (ws : WS) (m : Mode) :
    (Part001.filteredQueue s m = [] →
      (Part001.attemptToPair s ws m).pairedConnections = s.pairedConnections ∧
      Part001.getQ (Part001.attemptToPair s ws m) m = [Part001.PC.mk ws m]) ∧
    (∀ pc rest, Part001.filteredQueue s m = pc :: rest →
      mapGet (Part001.attemptToPair s ws m).pairedConnections ws = some pc.ws ∧
      mapGet (Part001.attemptToPair s ws m).pairedConnections pc.ws = some ws ∧
      Part001.getQ (Part001.attemptToPair s ws m) m = rest) := by
  constructor
  · intro h
    obtain ⟨h1, h2, h3⟩ := Part001.p1_attemptToPair_nil s ws m h
    exact ⟨h1, h3⟩
  · intro pc rest h
    obtain ⟨h1, h2, h3, h4, h5, h6⟩ := Part001.p1_attemptToPair_cons s ws m pc rest h
    exact ⟨h1, h2, h4⟩

def c4WitnessSt : Part001.St :=
  { opens := [1, 2, 3, 4],
    voiceQ := [Part001.PC.mk 1 Mode.voice, Part001.PC.mk 2 Mode.voice,
      Part001.PC.mk 3 Mode.voice],
    videoQ := [], pairedConnections := [], videoTimers := [], log := [] }

/-- Witness for C4: with W1, W2, W3 waiting in voice mode, the next arrival 4
is matched with W1 and the queue keeps W2, W3 in order. -/
theorem C4_fifo_matching_witness :
    mapGet (Part001.attemptToPair c4WitnessSt 4 Mode.voice).pairedConnections 4 = some 1 ∧
    Part001.getQ (Part001.attemptToPair c4WitnessSt 4 Mode.voice) Mode.voice =
      [Part001.PC.mk 2 Mode.voice, Part001.PC.mk 3 Mode.voice] := by
  have h := (C4_fifo_matching c4WitnessSt 4 Mode.voice).2 (Part001.PC.mk 1 Mode.voice)
    [Part001.PC.mk 2 Mode.voice, Part001.PC.mk 3 Mode.voice] (by decide)
  exact ⟨h.1, h.2.2⟩

/-- C5 (amended): in the part_001 variant a timer is scheduled at pairing
time iff the pair was formed under voice mode, with the fixed 60000 ms delay,
and a video-mode pairing leaves the timer map untouched.  In the part_002
status-queue variant every pairing receives the timer, video mode included
(see the counterexample). -/
theorem C5_timer_iff_voice (s : Part001.St) (ws : WS) (m : Mode) :
    (Part001.filteredQueue s m = [] →
      (Part001.attemptToPair s ws m).videoTimers = s.videoTimers) ∧
    (∀ pc rest, Part001.filteredQueue s m = pc :: rest → m = Mode.video →
      (Part001.attemptToPair s ws m).videoTimers = s.videoTimers) ∧
    (∀ pc rest, Part001.filteredQueue s m = pc :: rest → m = Mode.voice →
      mapGet (Part001.attemptToPair s ws m).videoTimers ws =
        some (Timer.mk ws pc.ws VIDEO_ENABLE_DELAY_MS) ∧
      mapGet (Part001.attemptToPair s ws m).videoTimers pc.ws =
        some (Timer.mk ws pc.ws VIDEO_ENABLE_DELAY_MS)) ∧
    VIDEO_ENABLE_DELAY_MS = 60000 := by
  refine ⟨?_, ?_, ?_, rfl⟩
  · intro h
    exact (Part001.p1_attemptToPair_nil s ws m h).2.1
  · intro pc rest h hm
    exact (Part001.p1_attemptToPair_cons s ws m pc rest h).2.2.2.2.1 hm
  · intro pc rest h hm
    exact (Part001.p1_attemptToPair_cons s ws m pc rest h).2.2.2.2.2 hm

def c5WitnessSt : Part001.St :=
  { opens := [1, 2], voiceQ := [Part001.PC.mk 1 Mode.voice], videoQ := [],
    pairedConnections := [], videoTimers := [], log := [] }

/-- Witness for C5: a voice pairing schedules the 60000 ms timer for both
sides; a video match attempt on the empty video queue leaves timers alone. -/
theorem C5_timer_iff_voice_witness :
    mapGet (Part001.attemptToPair c5WitnessSt 2 Mode.voice).videoTimers 2 =
      some (Timer.mk 2 1 VIDEO_ENABLE_DELAY_MS) ∧
    (Part001.attemptToPair c5WitnessSt 2 Mode.video).videoTimers =
      c5WitnessSt.videoTimers := by
  constructor
  · exact ((C5_timer_iff_voice c5WitnessSt 2 Mode.voice).2.2.1 (Part001.PC.mk 1 Mode.voice)
      [] (by decide) rfl).1
  · exact (C5_timer_iff_voice c5WitnessSt 2 Mode.video).1 (by decide)

def c5CexChain : Part002B.St :=
  Part002B.onMsgCONNECT (Part002B.onMsgCONNECT
    (Part002B.onConnection (Part002B.onConnection Part002B.initSt 1) 2)
    2 Mode.video) 1 Mode.video

/-- C5 counterexample: in the part_002 status-queue variant, clients 1 and 2
both request video mode, get paired — and both still receive a 60000 ms
escalation timer, contradicting the claim that a pair formed directly in
video mode never receives a timer. -/
theorem C5_cex_video_pair_timer :
    mapGet c5CexChain.pairs 1 = some 2 ∧
    mapGet c5CexChain.pairTimers 1 = some (Timer.mk 1 2 60000) ∧
    mapGet c5CexChain.pairTimers 2 = some (Timer.mk 1 2 60000) := by
  decide

/-- C6 (amended): in the part_001 variant the timer-fire callback re-verifies
the pair registry: both sides receive ENABLE_VIDEO iff the two captured
handles are still mutually linked at fire time, and nothing is emitted
otherwise.  The part_002 status-queue variant emits without re-checking (see
the counterexample). -/
theorem C6_fire_reverifies (s : Part001.St) (a b : WS) :
    (mapGet s.pairedConnections a = some b → s.opens.contains a = true →
      s.opens.contains b = true →
      (Part001.enableVideoModeForPair s a b).log = s.log ++
        [(a, Msg.enableVideoM ("Video chat enabled! Say hello visually.")),
         (b, Msg.enableVideoM ("Video chat enabled! Say hello visually."))]) ∧
    (mapGet s.pairedConnections a ≠ some b →
      (Part001.enableVideoModeForPair s a b).log = s.log) := by
  constructor
  · intro hpair ha hb
    have ham : a ∈ s.opens := by simpa using ha
    have hbm : b ∈ s.opens := by simpa using hb
    unfold Part001.enableVideoModeForPair
    rw [if_pos hpair]
    simp only [Part001.p1_send_timers]
    cases hT : mapGet s.videoTimers a <;>
      simp [Part001.sendMessageToClient, ham, hbm]
  · intro hne2
    unfold Part001.enableVideoModeForPair
    rw [if_neg hne2]
    cases hT : mapGet s.videoTimers a <;> simp [hT]

def c6WitnessSt : Part001.St :=
  { opens := [1, 2], voiceQ := [], videoQ := [],
    pairedConnections := [(1, 2), (2, 1)],
    videoTimers := [(1, Timer.mk 1 2 60000), (2, Timer.mk 1 2 60000)], log := [] }

/-- Witness for C6 at a still-paired state: both sides get ENABLE_VIDEO. -/
theorem C6_fire_reverifies_witness :
    (Part001.enableVideoModeForPair c6WitnessSt 1 2).log =
      [(1, Msg.enableVideoM ("Video chat enabled! Say hello visually.")),
       (2, Msg.enableVideoM ("Video chat enabled! Say hello visually."))] := by
  have h := (C6_fire_reverifies c6WitnessSt 1 2).1 (by decide) (by decide) (by decide)
  simpa using h

def c6CexSt : Part002B.St :=
  { opens := [1, 2], waitingClients := [], pairs := [], pairTimers := [], log := [] }

/-- C6 counterexample: the part_002 status-queue fire callback sends
ENABLE_VIDEO to both captured handles even though the two are not paired in
the registry, refuting the claim that the fire handler re-verifies the pair
registry before emitting anything. -/
theorem C6_cex_fire_unverified :
    mapGet c6CexSt.pairs 1 = none ∧
    (Part002B.enableVideoModeForPair c6CexSt 1 2).log =
      [(1, Msg.enableVideoM ("Video mode enabled!")),
       (2, Msg.enableVideoM ("Video mode enabled!"))] := by
  decide

/-- C7: in the part_002 single-queue variant, when a paired client x (partner
y, y open, queue empty) drops — transport close or error — the partner is sent
DISCONNECTED and automatically re-enqueued (it sits in pendingUsers, open and
unpaired, eligible to match the next arrival), while x is fully forgotten:
no pending entry, no pair-registry entry, no timer entry.  The error handler
behaves identically to the close handler. -/
theorem C7_close_requeues_partner (s : Part002A.St) (x y : WS) (r : Bool)
    (hp : mapGet s.pairedConnections x = some y)
    (hne : x ≠ y)
    (hyo : s.opens.contains y = true)
    (hq : s.pendingUsers = []) :
    (Part002A.onClose s x r).log = s.log ++
      [(y, Msg.disconnectedM ("Your partner disconnected.")),
       (y, Msg.statusM ("Searching for a stranger..."))] ∧
    (Part002A.onClose s x r).pendingUsers = [y] ∧
    mapGet (Part002A.onClose s x r).pairedConnections x = none ∧
    mapGet (Part002A.onClose s x r).pairedConnections y = none ∧
    mapGet (Part002A.onClose s x r).videoTimers x = none ∧
    (Part002A.onClose s x r).opens.contains y = true ∧
    Part002A.onError s x r = Part002A.onClose s x r := by
  have hs1 : Part002A.onClose s x r =
      Part002A.disconnectPair
        { s with opens := s.opens.filter (fun w => !(w == x)) } x true r := rfl
  have hyo2 : (({ s with opens := s.opens.filter (fun w => !(w == x)) } :
      Part002A.St)).opens.contains y = true :=
    contains_filter_ne _ _ _ hyo (Ne.symm hne)
  obtain ⟨hL, hPend, hPx, hPy, hTx, hO⟩ :=
    Part002A.p2a_disconnectPair_rq_empty
      { s with opens := s.opens.filter (fun w => !(w == x)) } x y r hp hyo2 hq hne
  refine ⟨?_, ?_, ?_, ?_, ?_, ?_, rfl⟩
  · rw [hs1, hL]
  · rw [hs1, hPend]
  · rw [hs1]
    exact hPx
  · rw [hs1]
    exact hPy
  · rw [hs1]
    exact hTx
  · rw [hs1, hO]
    exact hyo2

def c7WitnessSt : Part002A.St :=
  { opens := [1, 2], pendingUsers := [], pairedConnections := [(1, 2), (2, 1)],
    videoTimers := [(1, Timer.mk 1 2 60000), (2, Timer.mk 1 2 60000)], log := [] }

/-- Witness for C7 at a concrete paired state with a live timer. -/
theorem C7_close_requeues_partner_witness :
    (Part002A.onClose c7WitnessSt 1 true).pendingUsers = [2] ∧
    mapGet (Part002A.onClose c7WitnessSt 1 true).videoTimers 1 = none := by
  have h := C7_close_requeues_partner c7WitnessSt 1 2 true (by decide) (by decide)
    (by decide) (by decide)
  exact ⟨h.2.1, h.2.2.2.2.1⟩

/-- C8 (amended): in index.js a SIGNAL from a paired client forwards the
payload verbatim to the partner and changes nothing else; a SIGNAL from an
unpaired client sends the failure STATUS back to the sender and nothing to
anyone else.  The part_002 single-queue variant silently drops an unpaired
SIGNAL instead (see the counterexample). -/
theorem C8_signal_relay (s : IndexJs.St) (ws : WS) (sig : String) :
    (∀ p, mapGet s.pairs ws = some p → s.opens.contains p = true →
      (IndexJs.onMsgSIGNAL s ws sig).log = s.log ++ [(p, Msg.signalM sig)] ∧
      (IndexJs.onMsgSIGNAL s ws sig).waitingClients = s.waitingClients ∧
      (IndexJs.onMsgSIGNAL s ws sig).pairs = s.pairs) ∧
    (mapGet s.pairs ws = none → s.opens.contains ws = true →
      (IndexJs.onMsgSIGNAL s ws sig).log =
        s.log ++ [(ws, Msg.statusM ("You are not paired."))] ∧
      (IndexJs.onMsgSIGNAL s ws sig).waitingClients = s.waitingClients ∧
      (IndexJs.onMsgSIGNAL s ws sig).pairs = s.pairs) := by
  constructor
  · intro p hp hpo
    have hm : p ∈ s.opens := by simpa using hpo
    unfold IndexJs.onMsgSIGNAL
    rw [hp]
    refine ⟨?_, ?_, ?_⟩ <;> simp [IndexJs.sendMessageToClient, hm]
  · intro hp hwo
    have hm : ws ∈ s.opens := by simpa using hwo
    unfold IndexJs.onMsgSIGNAL
    rw [hp]
    refine ⟨?_, ?_, ?_⟩ <;> simp [IndexJs.sendMessageToClient, hm]

def c8WitnessSt : IndexJs.St :=
  { opens := [1, 2], waitingClients := [], pairs := [(1, 2), (2, 1)], log := [] }

/-- Witness for C8: a paired SIGNAL is forwarded verbatim, an unpaired SIGNAL
yields the failure STATUS. -/
theorem C8_signal_relay_witness :
    (IndexJs.onMsgSIGNAL c8WitnessSt 1 ("sdp-offer")).log =
      [(2, Msg.signalM ("sdp-offer"))] := by
  have h := (C8_signal_relay c8WitnessSt 1 ("sdp-offer")).1 2 (by decide) (by decide)
  simpa using h.1

def c8CexSt : Part002A.St :=
  { opens := [1], pendingUsers := [], pairedConnections := [], videoTimers := [],
    log := [] }

/-- C8 counterexample: in the part_002 single-queue variant an unpaired
SIGNAL is silently ignored — the state is unchanged and in particular no
failure STATUS is sent to the sender, contradicting the claim. -/
theorem C8_cex_silent_drop :
    Part002A.onMsgSIGNAL c8CexSt 1 ("sdp-offer") = c8CexSt ∧
    (Part002A.onMsgSIGNAL c8CexSt 1 ("sdp-offer")).log = [] := by
  decide

def c9Chain : Part001.St :=
  Part001.onClose (Part001.onMsgCONNECT (Part001.onMsgCONNECT
    (Part001.onConnection (Part001.onConnection
      { opens := [], voiceQ := [], videoQ := [], pairedConnections := [],
        videoTimers := [], log := [] } 1) 2)
    1 Mode.video) 2 Mode.video) 1

/-- C9 (code bug in part_001): clients 1 and 2 both request video mode and
are paired in video mode; when the transport of client 1 closes, the requeue
path rebuilds the partner object as having mode voice (part_001 line 140), so
client 2 ends up in the VOICE queue instead of its recorded video queue —
exactly the hardcoded-default bug that the design notes forbid. -/
theorem C9_hardcoded_voice_requeue :
    c9Chain.voiceQ = [Part001.PC.mk 2 Mode.voice] ∧
    c9Chain.videoQ = [] := by
  decide

/-- C10 (amended): on every successful match PAIR_FOUND is emitted to both
sides with opposite initiator polarity.  In the part_002 single-queue variant
the requester gets the pseudo-random draw r and the partner its negation, so
either side may end up initiator; in index.js the newer arrival is always
initiator true and the waiting partner always false — a fixed rule. -/
theorem C10_initiator_polarity :
    (∀ (s : Part002A.St) (ws : WS) (r : Bool) (p : WS) (rest : List WS),
      Part002A.availableUsers s = p :: rest → s.opens.contains ws = true →
      (Part002A.attemptToPair s ws r).log = s.log ++
        [(ws, Msg.pairFoundM r), (p, Msg.pairFoundM (!r))]) ∧
    (∀ (s : IndexJs.St) (ws : WS) (pc : IndexJs.Entry) (rest : List IndexJs.Entry),
      IndexJs.validWaitingClients s = pc :: rest → s.opens.contains ws = true →
      (IndexJs.attemptToPair s ws).log = s.log ++
        [(ws, Msg.pairFoundM true), (pc.ws, Msg.pairFoundM false)]) := by
  constructor
  · intro s ws r p rest h hwo
    have hpm : p ∈ Part002A.availableUsers s := by
      rw [h]; exact List.mem_cons_self _ _
    have hpo : p ∈ s.opens := by
      have h2 := (List.mem_filter.mp hpm).2
      simp only [Bool.and_eq_true] at h2
      simpa using h2.1
    have hwm : ws ∈ s.opens := by simpa using hwo
    simp [Part002A.attemptToPair, h, Part002A.sendMessageToClient, hpo, hwm]
  · intro s ws pc rest h hwo
    have hpm : pc ∈ IndexJs.validWaitingClients s := by
      rw [h]; exact List.mem_cons_self _ _
    have hpo : pc.ws ∈ s.opens := by
      have h2 := (List.mem_filter.mp hpm).2
      simp only [Bool.and_eq_true] at h2
      simpa using h2.1.1
    have hwm : ws ∈ s.opens := by simpa using hwo
    simp [IndexJs.attemptToPair, h, IndexJs.sendMessageToClient, hwm, hpo]

def c10WitnessSt : Part002A.St :=
  { opens := [1, 2], pendingUsers := [1], pairedConnections := [], videoTimers := [],
    log := [] }

/-- Witness for C10: the same concrete match emits initiator true to the
requester under draw r = true and initiator false under r = false, with the
partner always getting the opposite value. -/
theorem C10_initiator_polarity_witness :
    (Part002A.attemptToPair c10WitnessSt 2 true).log =
      [(2, Msg.pairFoundM true), (1, Msg.pairFoundM false)] ∧
    (Part002A.attemptToPair c10WitnessSt 2 false).log =
      [(2, Msg.pairFoundM false), (1, Msg.pairFoundM true)] := by
  constructor
  · have h := C10_initiator_polarity.1 c10WitnessSt 2 true 1 [] (by decide) (by decide)
    simpa using h
  · have h := C10_initiator_polarity.1 c10WitnessSt 2 false 1 [] (by decide) (by decide)
    simpa using h

def c10CexStA : IndexJs.St :=
  { opens := [1, 2], waitingClients := [IndexJs.Entry.mk 1 QStatus.WAITING],
    pairs := [], log := [] }

def c10CexStB : IndexJs.St :=
  { opens := [1, 2], waitingClients := [IndexJs.Entry.mk 2 QStatus.WAITING],
    pairs := [], log := [] }

/-- C10 counterexample: index.js hardcodes the polarity — in two symmetric
scenarios the newer arrival is always the initiator, so the initiator side is
determined by a fixed rule (the newer arrival), not by a pseudo-random draw. -/
theorem C10_cex_fixed_rule :
    (IndexJs.onMsgCONNECT c10CexStA 2).log =
      [(2, Msg.pairFoundM true), (1, Msg.pairFoundM false)] ∧
    (IndexJs.onMsgCONNECT c10CexStB 1).log =
      [(1, Msg.pairFoundM true), (2, Msg.pairFoundM false)] := by
  decide
